import Mathlib

/-!
Verification development for the real-time conversation routing and
session-state engine of `src/server.js`.

The JavaScript module keeps its state in module-level collections
(`conversations`, `humanAgents`, `waitingQueue`, `agentSessions`,
`sessionAgentMap`, `customerTimeouts`, `customerIdleTimeouts`,
`agentReconnectTimeouts`, `chatHistory`) and mutates them from WebSocket
event handlers.  We embed that state as a Lean structure and each handler
as a pure function `ServerState → ServerState × List Send`, where `Send`
records one `ws.send(...)` call (the JSON `type` tag and the payload
fields the claims talk about).

Connections are identified by numeric ids; `ServerState.openConns` is the
set of ids whose `readyState` is `WebSocket.OPEN`.  `ws && ws.readyState
=== WebSocket.OPEN` guards are embedded via `wsOpen`.  JavaScript `Map`s
become association lists with `lookupM` / `setM` / `delM` (set replaces
the existing entry, delete removes it), and `setTimeout` handles become
entries `key ↦ deadline` where `deadline = now + delay`; the timer
callback bodies are embedded as explicit `fire…` transitions that are
enabled once `deadline ≤ now` and that delete their own entry, exactly as
the one-shot callbacks do.  External calls (the Gemini AI responder,
`knowledgeDB.logCustomerIntent`, `bcrypt`/JWT auth) are out of the core:
the AI verdict enters `handleCustomerMessage` as an oracle argument and
the fire-and-forget logging is not modelled.
-/

namespace VgRouting

/-- One transcript entry: `{role, content}` (the server also stores a
timestamp, which no claim mentions). -/
structure Msg where
  role : String
  content : String
deriving DecidableEq, Repr

/-- One entry of the `conversations` map (`src/server.js`, the objects
created in `handleCustomerMessage` / `handleCustomerSessionRestore` and
mutated by `handleAcceptRequest` / `handleEndChat`). -/
structure Conversation where
  customerWs : Option Nat
  messages : List Msg
  hasHuman : Bool
  agentWs : Option Nat
  assignedAgent : Option String
  agentName : Option String
  customerInfo : Option String
deriving DecidableEq, Repr

/-- One entry of the `humanAgents` map: `{ws, user, status, sessionId}`;
of `user` we keep the display name, which is all the routing reads. -/
structure AgentData where
  ws : Option Nat
  userName : String
  status : String
  sessionId : Option String
deriving DecidableEq, Repr

/-- One `ws.send(JSON.stringify({...}))` call, tagged with the JSON `type`
field of the payload and the target connection id. -/
inductive Send where
  | requestAlreadyTaken (target : Nat) (sessionId : String)
  | requestTaken (target : Nat) (sessionId : String) (takenBy : String) (remainingQueue : Nat)
  | humanJoined (target : Nat) (agentName : String)
  | customerAssigned (target : Nat) (sessionId : String) (history : List Msg)
      (canned : Bool)
  | noAgentsAvailable (target : Nat)
  | pendingRequest (target : Nat) (sessionId : String) (position : Nat) (totalInQueue : Nat)
      (lastMessage : String)
  | waitingForHuman (target : Nat) (position : Nat)
  | connectionRestored (target : Nat) (sessionId : String) (history : List Msg)
  | agentReconnected (target : Nat) (agentName : String)
  | customerTimeoutNote (target : Nat) (sessionId : String) (remainingQueue : Nat)
  | sessionTimeout (target : Nat)
  | agentStatusMsg (target : Nat) (waitingCustomers : Nat) (statusTag : String)
  | agentJoined (target : Nat) (agentId : String)
  | customerMessageForward (target : Nat) (sessionId : String) (content : String)
  | agentDisconnectedTemp (target : Nat)
  | handoffOffer (target : Nat) (sessionId : String) (content : String)
  | aiResponseMsg (target : Nat) (sessionId : String) (content : String)
  | errorMsg (target : Nat) (content : String)
  | agentMessageOut (target : Nat) (content : String)
  | satisfactionSurvey (target : Nat) (sessionId : String) (interactionType : String)
  | agentLeft (target : Nat) (endReason : String)
  | sessionEndedByCustomer (target : Nat) (sessionId : String)
  | chatEnded (target : Nat) (sessionId : String) (endedBy : String) (endReason : String)
      (totalQueue : Nat)
  | customerLeftQueue (target : Nat) (sessionId : String) (remainingQueue : Nat)
  | sessionRestoredMsg (target : Nat) (sessionId : String) (isConnectedToHuman : Bool)
  | customerReconnected (target : Nat) (sessionId : String)
  | sessionEnded (target : Nat)
deriving DecidableEq, Repr

/-- The connection id a `Send` writes to. -/
def Send.target : Send → Nat
  | requestAlreadyTaken t _ => t
  | requestTaken t _ _ _ => t
  | humanJoined t _ => t
  | customerAssigned t _ _ _ => t
  | noAgentsAvailable t => t
  | pendingRequest t _ _ _ _ => t
  | waitingForHuman t _ => t
  | connectionRestored t _ _ => t
  | agentReconnected t _ => t
  | customerTimeoutNote t _ _ => t
  | sessionTimeout t => t
  | agentStatusMsg t _ _ => t
  | agentJoined t _ => t
  | customerMessageForward t _ _ => t
  | agentDisconnectedTemp t => t
  | handoffOffer t _ _ => t
  | aiResponseMsg t _ _ => t
  | errorMsg t _ => t
  | agentMessageOut t _ => t
  | satisfactionSurvey t _ _ => t
  | agentLeft t _ => t
  | sessionEndedByCustomer t _ => t
  | chatEnded t _ _ _ _ => t
  | customerLeftQueue t _ _ => t
  | sessionRestoredMsg t _ _ => t
  | customerReconnected t _ => t
  | sessionEnded t => t

/-- The module-level mutable state of `src/server.js` (the five stores of
the routing core, the timer maps, the saved `chatHistory` summaries — of
which we keep `(sessionId, endReason)` — plus the transport-level set of
open connection ids and the current clock used to place timer
deadlines). -/
structure ServerState where
  openConns : List Nat
  conversations : List (String × Conversation)
  humanAgents : List (String × AgentData)
  waitingQueue : List String
  agentSessions : List (String × String)
  sessionAgentMap : List (String × String)
  customerTimeouts : List (String × Nat)
  customerIdleTimeouts : List (String × Nat)
  agentReconnectTimeouts : List (String × (String × Nat))
  chatHistory : List (String × String)
  now : Nat
deriving DecidableEq, Repr

/-- `Map.get(k)` on an association list. -/
def lookupM {α : Type} (k : String) : List (String × α) → Option α
  | [] => none
  | p :: rest => if p.1 = k then some p.2 else lookupM k rest

/-- `Map.set(k, v)`: replace the entry for `k` if present, else append. -/
def setM {α : Type} (k : String) (v : α) : List (String × α) → List (String × α)
  | [] => [(k, v)]
  | p :: rest => if p.1 = k then (k, v) :: rest else p :: setM k v rest

/-- `Map.delete(k)`: drop the entry for `k`. -/
def delM {α : Type} (k : String) : List (String × α) → List (String × α)
  | [] => []
  | p :: rest => if p.1 = k then delM k rest else p :: delM k rest

/-- `ws && ws.readyState === WebSocket.OPEN` for a stored handle. -/
def wsOpen (oc : List Nat) : Option Nat → Bool
  | some c => oc.contains c
  | none => false

/-- `const CUSTOMER_TIMEOUT = 10 * 60 * 1000` (queue-eviction inactivity
timer delay). -/
def CUSTOMER_TIMEOUT : Nat := 10 * 60 * 1000

/-- `const CUSTOMER_IDLE_TIMEOUT = (10 * 60 * 1000) + (30 * 1000)`
(session-ending idle timer delay).  `CUSTOMER_IDLE_WARNING` is declared in
the source but never read. -/
def CUSTOMER_IDLE_TIMEOUT : Nat := 10 * 60 * 1000 + 30 * 1000

/-- `const AGENT_RECONNECT_WINDOW = 5 * 60 * 1000`. -/
def AGENT_RECONNECT_WINDOW : Nat := 5 * 60 * 1000

/-- `messages.slice(-1)[0]?.content || dflt`; JS `||` also falls back on
an empty-string content. -/
def lastContent (msgs : List Msg) (dflt : String) : String :=
  match msgs.getLast? with
  | some m => if m.content = "" then dflt else m.content
  | none => dflt

/-- `messages.slice(-10)` and friends: the last `n` elements. -/
def takeLast {α : Type} (n : Nat) (l : List α) : List α := l.drop (l.length - n)

/-- `clearCustomerTimeout` (line 343): cancel and forget the queue-eviction
timer. -/
def clearCustomerTimeout (sid : String) (st : ServerState) : ServerState :=
  { st with customerTimeouts := delM sid st.customerTimeouts }

/-- `setupCustomerTimeout` (line 314): clear any pending timer for this
session, then arm one that fires `CUSTOMER_TIMEOUT` from now. -/
def setupCustomerTimeout (sid : String) (st : ServerState) : ServerState :=
  let st1 := clearCustomerTimeout sid st
  { st1 with customerTimeouts := setM sid (st1.now + CUSTOMER_TIMEOUT) st1.customerTimeouts }

/-- `clearCustomerIdleTimeout` (line 383). -/
def clearCustomerIdleTimeout (sid : String) (st : ServerState) : ServerState :=
  { st with customerIdleTimeouts := delM sid st.customerIdleTimeouts }

/-- `setupCustomerIdleTimeout` (line 351), arming part only; the callback
body is `fireCustomerIdleTimeout`. -/
def setupCustomerIdleTimeout (sid : String) (st : ServerState) : ServerState :=
  let st1 := clearCustomerIdleTimeout sid st
  { st1 with customerIdleTimeouts := setM sid (st1.now + CUSTOMER_IDLE_TIMEOUT) st1.customerIdleTimeouts }

/-- `setupAgentReconnectTimeout` (line 516), arming part; the callback
captures both the agent id and the session id. -/
def setupAgentReconnectTimeout (aid : String) (sid : String) (st : ServerState) : ServerState :=
  let timers := setM aid (sid, st.now + AGENT_RECONNECT_WINDOW) st.agentReconnectTimeouts
  { st with agentReconnectTimeouts := timers }

/-- `saveChatHistory(sessionId, endReason)` (line 392): appends a summary
record (we keep its `sessionId` and `endReason`); no-op when the
conversation is absent. -/
def saveChatHistory (sid : String) (reason : String) (st : ServerState) : ServerState :=
  match lookupM sid st.conversations with
  | none => st
  | some _ => { st with chatHistory := st.chatHistory ++ [(sid, reason)] }

/-- The callback of `setupCustomerTimeout` (lines 317-341): if the
conversation exists and has no human, remove the session from the waiting
queue (when present) and tell every live agent; finally forget the timer
handle.  One-shot: it deletes its own map entry. -/
def fireCustomerTimeout (sid : String) (st : ServerState) : ServerState × List Send :=
  let step : ServerState × List Send :=
    match lookupM sid st.conversations with
    | some conv =>
        if conv.hasHuman then (st, [])
        else if st.waitingQueue.contains sid then
          let q' := st.waitingQueue.erase sid
          ({ st with waitingQueue := q' },
           (st.humanAgents.filter (fun p => wsOpen st.openConns p.2.ws)).map
             (fun p => Send.customerTimeoutNote (p.2.ws.getD 0) sid q'.length))
        else (st, [])
    | none => (st, [])
  ({ step.1 with customerTimeouts := delM sid step.1.customerTimeouts }, step.2)

/-- `handleEndChat(sessionId, endReason)` (lines 883-957).  The customer
notifications that the source wraps in a `setTimeout` (survey first, then
`agent_left` after 0 or 5000 ms) are collapsed to immediate sends; the
callback re-checks `readyState` at fire time, which coincides with the
schedule-time check in a run without intervening events.  Note the
function clears the agent linkage and frees the agent but never calls
`conversations.delete`: the session record stays in the registry. -/
def handleEndChat (sid : String) (reason : String) (st : ServerState) : ServerState × List Send :=
  match lookupM sid st.conversations with
  | none => (st, [])
  | some conv =>
      let agentId := conv.assignedAgent
      let agentData := match agentId with
        | some a => lookupM a st.humanAgents
        | none => none
      let st1 := saveChatHistory sid reason st
      let customerOuts :=
        if wsOpen st.openConns conv.customerWs ∧ reason ≠ "agent_timeout" then
          (if reason = "agent_ended" ∨ reason = "customer_ended" then
            [Send.satisfactionSurvey (conv.customerWs.getD 0) sid "human_agent"]
           else [])
          ++ [Send.agentLeft (conv.customerWs.getD 0) reason]
        else []
      let agentOuts :=
        if wsOpen st.openConns conv.agentWs ∧ reason = "customer_ended" then
          [Send.sessionEndedByCustomer (conv.agentWs.getD 0) sid]
        else []
      let conv' := { conv with
        hasHuman := false, agentWs := none,
        assignedAgent := none, agentName := none }
      let st2 := { st1 with conversations := setM sid conv' st1.conversations }
      let st3 :=
        match agentId with
        | some a =>
            let stA :=
              match lookupM a st2.humanAgents with
              | some ad =>
                  let freed := setM a { ad with status := "online", sessionId := none } st2.humanAgents
                  { st2 with humanAgents := freed }
              | none => st2
            { stA with agentSessions := delM a stA.agentSessions,
                       sessionAgentMap := delM sid stA.sessionAgentMap,
                       agentReconnectTimeouts := delM a stA.agentReconnectTimeouts }
        | none => st2
      let broadcast :=
        (st3.humanAgents.filter (fun p =>
            (match agentId with | some a => p.1 != a | none => true)
            && wsOpen st.openConns p.2.ws)).map
          (fun p => Send.chatEnded (p.2.ws.getD 0) sid
            (if reason = "customer_ended" then "Customer"
             else match agentData with | some ad => ad.userName | none => "Unknown")
            reason st3.waitingQueue.length)
      (st3, customerOuts ++ agentOuts ++ broadcast)

/-- The callback of `setupCustomerIdleTimeout` (lines 354-380): notify the
customer, then end the chat (human-handled) or delete the conversation and
dequeue it (AI-only); finally forget the timer handle. -/
def fireCustomerIdleTimeout (sid : String) (st : ServerState) : ServerState × List Send :=
  let step : ServerState × List Send :=
    match lookupM sid st.conversations with
    | some conv =>
        let note :=
          if wsOpen st.openConns conv.customerWs then
            [Send.sessionTimeout (conv.customerWs.getD 0)]
          else []
        if conv.hasHuman then
          let r := handleEndChat sid "customer_idle" st
          (r.1, note ++ r.2)
        else
          ({ st with conversations := delM sid st.conversations,
                     waitingQueue := st.waitingQueue.erase sid }, note)
    | none => (st, [])
  ({ step.1 with customerIdleTimeouts := delM sid step.1.customerIdleTimeouts }, step.2)

/-- The callback of `setupAgentReconnectTimeout` (lines 519-533): if the
session still points at this agent, end the chat with reason
`agent_timeout`; in every case drop the agent-session links and the timer
handle. -/
def fireAgentReconnectTimeout (aid : String) (sid : String) (st : ServerState) :
    ServerState × List Send :=
  let step : ServerState × List Send :=
    match lookupM sid st.conversations with
    | some conv =>
        if conv.assignedAgent = some aid then handleEndChat sid "agent_timeout" st
        else (st, [])
    | none => (st, [])
  ({ step.1 with agentSessions := delM aid step.1.agentSessions,
                 sessionAgentMap := delM sid step.1.sessionAgentMap,
                 agentReconnectTimeouts := delM aid step.1.agentReconnectTimeouts }, step.2)

/-- `handleAcceptRequest(sessionId, agentId)` (lines 759-835). -/
def handleAcceptRequest (sid : String) (aid : String) (st : ServerState) :
    ServerState × List Send :=
  match lookupM sid st.conversations, lookupM aid st.humanAgents with
  | some conv, some agentData =>
      if conv.hasHuman then
        (st,
         if wsOpen st.openConns agentData.ws then
           [Send.requestAlreadyTaken (agentData.ws.getD 0) sid]
         else [])
      else
        let conv' := { conv with
          hasHuman := true, agentWs := agentData.ws,
          assignedAgent := some aid, agentName := some agentData.userName }
        let busyAgents := setM aid { agentData with status := "busy", sessionId := some sid } st.humanAgents
        let st1 := { st with
          conversations := setM sid conv' st.conversations,
          agentSessions := setM aid sid st.agentSessions,
          sessionAgentMap := setM sid aid st.sessionAgentMap,
          humanAgents := busyAgents }
        let st2 := clearCustomerTimeout sid st1
        let st3 := { st2 with waitingQueue := st2.waitingQueue.erase sid }
        let broadcast :=
          (st3.humanAgents.filter (fun p => p.1 != aid && wsOpen st.openConns p.2.ws)).map
            (fun p => Send.requestTaken (p.2.ws.getD 0) sid agentData.userName
                        st3.waitingQueue.length)
        let customerNote :=
          if wsOpen st.openConns conv.customerWs then
            [Send.humanJoined (conv.customerWs.getD 0) agentData.userName]
          else []
        let agentNote :=
          if wsOpen st.openConns agentData.ws then
            [Send.customerAssigned (agentData.ws.getD 0) sid conv.messages true]
          else []
        (st3, broadcast ++ customerNote ++ agentNote)
  | _, _ => (st, [])

/-- `handleHumanRequest(sessionId, customerInfo)` (lines 959-1038).  The
two `knowledgeDB.logCustomerIntent` awaits are external fire-and-forget
logging and are not modelled.  In the zero-live-agents branch the source
writes `conversation.customerWs.send(...)` with NO `readyState` check (the
only unguarded send to a stored connection in the routing core), so this
send is emitted whether or not the stored handle is open; were the handle
`null` the JS call would throw a `TypeError` that the outer try/catch of
`handleWebSocketMessage` swallows, ending the handler — i.e. no send. -/
def handleHumanRequest (sid : String) (customerInfo : Option String) (st : ServerState) :
    ServerState × List Send :=
  match lookupM sid st.conversations with
  | none => (st, [])
  | some conv0 =>
      let conv := match customerInfo with
        | some info => { conv0 with customerInfo := some info }
        | none => conv0
      let stA := { st with conversations := setM sid conv st.conversations }
      let connectedAgents := stA.humanAgents.filter (fun p => wsOpen stA.openConns p.2.ws)
      if connectedAgents.length = 0 then
        (stA,
         match conv.customerWs with
         | some c => [Send.noAgentsAvailable c]
         | none => [])
      else
        let q' := if stA.waitingQueue.contains sid then stA.waitingQueue
                  else stA.waitingQueue ++ [sid]
        let stB := { stA with waitingQueue := q' }
        let pos := q'.indexOf sid + 1
        let agentOuts := connectedAgents.map (fun p =>
          Send.pendingRequest (p.2.ws.getD 0) sid pos q'.length
            (lastContent conv.messages "Customer wants to speak with human"))
        let custOut :=
          if wsOpen stB.openConns conv.customerWs then
            [Send.waitingForHuman (conv.customerWs.getD 0) pos]
          else []
        (stB, agentOuts ++ custOut)

/-- `handleAgentReconnection(agentId, ws, user)` (lines 412-463).  Returns
the new state, the emitted sends, and the `wasReconnected` flag. -/
def handleAgentReconnection (w : Nat) (aid : String) (uname : String) (st : ServerState) :
    ServerState × List Send × Bool :=
  let st0 := { st with agentReconnectTimeouts := delM aid st.agentReconnectTimeouts }
  match lookupM aid st0.agentSessions with
  | some prev =>
      match lookupM prev st0.conversations with
      | some conv =>
          if conv.hasHuman ∧ conv.assignedAgent = some aid then
            let restoredAgents := setM aid
              { ws := some w, userName := uname, status := "busy", sessionId := some prev }
              st0.humanAgents
            let st1 := { st0 with
              conversations := setM prev { conv with agentWs := some w } st0.conversations,
              humanAgents := restoredAgents }
            let outs := [Send.connectionRestored w prev (takeLast 10 conv.messages)]
              ++ (if wsOpen st1.openConns conv.customerWs then
                    [Send.agentReconnected (conv.customerWs.getD 0) uname]
                  else [])
            (st1, outs, true)
          else
            ({ st0 with agentSessions := delM aid st0.agentSessions,
                        sessionAgentMap := delM prev st0.sessionAgentMap }, [], false)
      | none =>
          ({ st0 with agentSessions := delM aid st0.agentSessions,
                      sessionAgentMap := delM prev st0.sessionAgentMap }, [], false)
  | none => (st0, [], false)

/-- `handleAgentJoin(ws, data)` (lines 659-757) after the JWT/user lookup
(external auth): reconnection attempt, record registration, the status
message, and — for fresh joins — the queue replay and the join
broadcast. -/
def handleAgentJoin (w : Nat) (aid : String) (uname : String) (st : ServerState) :
    ServerState × List Send :=
  let r := handleAgentReconnection w aid uname st
  let st1 := r.1
  let wasReconnected := r.2.2
  let st2 :=
    if wasReconnected then st1
    else
      match lookupM aid st1.humanAgents with
      | some existing =>
          { st1 with humanAgents := setM aid { existing with ws := some w } st1.humanAgents }
      | none =>
          let freshAgents := setM aid
            { ws := some w, userName := uname, status := "online", sessionId := none }
            st1.humanAgents
          { st1 with humanAgents := freshAgents }
  let statusOut :=
    [Send.agentStatusMsg w st2.waitingQueue.length
      (if wasReconnected then "reconnected" else "online")]
  let replay :=
    if wasReconnected then []
    else st2.waitingQueue.enum.filterMap (fun p =>
      match lookupM p.2 st2.conversations with
      | some conv =>
          some (Send.pendingRequest w p.2 (p.1 + 1) st2.waitingQueue.length
                  (lastContent conv.messages "New request"))
      | none => none)
  let joinedBroadcast :=
    if wasReconnected then []
    else
      (st2.humanAgents.filter (fun p => p.1 != aid && wsOpen st2.openConns p.2.ws)).map
        (fun p => Send.agentJoined (p.2.ws.getD 0) aid)
  (st2, r.2.1 ++ statusOut ++ replay ++ joinedBroadcast)

/-- The verdict of the external AI responder (`generateAIResponse`),
consumed by `handleCustomerMessage`: `handoff` covers the
`handoff_suggestion` and `no_knowledge` outcomes (treated identically),
`answer` is `ai_response`, `failed` is the error outcome. -/
inductive AiResponse where
  | handoff (message : String) (reason : String)
  | answer (message : String)
  | failed (message : String)
deriving DecidableEq, Repr

/-- `handleCustomerMessage(ws, sessionId, message)` (lines 556-677) with
the AI verdict as an oracle argument.  Note which timers move: the
queue-eviction timer (`customerTimeouts`) is cleared and re-armed on every
message, while `customerIdleTimeouts` is not touched here.  When the
assigned agent's socket is dead and `assignedAgent` were `null`, the
source would arm a reconnect timer keyed by `null`; that corner is
unreachable while the bidirectional link invariant holds and is embedded
as a no-op. -/
def handleCustomerMessage (w : Nat) (sid : String) (message : String) (ai : AiResponse)
    (st : ServerState) : ServerState × List Send :=
  let stA :=
    if (lookupM sid st.conversations).isNone then
      let fresh : Conversation := {
        customerWs := some w, messages := [], hasHuman := false,
        agentWs := none, assignedAgent := none, agentName := none, customerInfo := none }
      setupCustomerTimeout sid { st with conversations := setM sid fresh st.conversations }
    else st
  match lookupM sid stA.conversations with
  | none => (stA, [])
  | some conv0 =>
      let conv := { conv0 with
        messages := conv0.messages ++ [{ role := "user", content := message }] }
      let stB := { stA with conversations := setM sid conv stA.conversations }
      let stC := setupCustomerTimeout sid (clearCustomerTimeout sid stB)
      if conv.hasHuman ∧ conv.agentWs.isSome then
        if wsOpen stC.openConns conv.agentWs then
          (stC, [Send.customerMessageForward (conv.agentWs.getD 0) sid message])
        else
          let custNote :=
            if wsOpen stC.openConns conv.customerWs then
              [Send.agentDisconnectedTemp (conv.customerWs.getD 0)]
            else []
          let stD :=
            match conv.assignedAgent with
            | some aid =>
                if (lookupM aid stC.agentReconnectTimeouts).isNone then
                  setupAgentReconnectTimeout aid sid stC
                else stC
            | none => stC
          (stD, custNote)
      else
        match ai with
        | .handoff m _ => (stC, [Send.handoffOffer w sid m])
        | .answer m =>
            let conv2 := { conv with
              messages := conv.messages ++ [{ role := "assistant", content := m }] }
            ({ stC with conversations := setM sid conv2 stC.conversations },
             [Send.aiResponseMsg w sid m])
        | .failed m =>
            let conv2 := { conv with
              messages := conv.messages ++ [{ role := "assistant", content := m }] }
            ({ stC with conversations := setM sid conv2 stC.conversations },
             [Send.errorMsg w m])

/-- `handleCustomerSessionRestore(ws, sessionId)` (lines 465-513). -/
def handleCustomerSessionRestore (w : Nat) (sid : String) (st : ServerState) :
    ServerState × List Send :=
  match lookupM sid st.conversations with
  | some conv =>
      let relinked := setM sid { conv with customerWs := some w } st.conversations
      let st1 := { st with conversations := relinked }
      let st2 := setupCustomerIdleTimeout sid st1
      let outs := [Send.sessionRestoredMsg w sid conv.hasHuman]
        ++ (if conv.hasHuman ∧ wsOpen st2.openConns conv.agentWs then
              [Send.customerReconnected (conv.agentWs.getD 0) sid]
            else [])
      (st2, outs)
  | none =>
      let fresh : Conversation := {
        customerWs := some w, messages := [], hasHuman := false,
        agentWs := none, assignedAgent := none, agentName := none, customerInfo := none }
      let st1 := { st with conversations := setM sid fresh st.conversations }
      let st2 := setupCustomerIdleTimeout sid (setupCustomerTimeout sid st1)
      (st2, [Send.sessionRestoredMsg w sid false])

/-- `handleAgentMessage(sessionId, message)` (lines 838-882): append to the
transcript and forward to the customer when their socket is open; early
return (before the append) when the conversation or the customer handle is
missing. -/
def handleAgentMessage (sid : String) (message : String) (st : ServerState) :
    ServerState × List Send :=
  match lookupM sid st.conversations with
  | none => (st, [])
  | some conv =>
      match conv.customerWs with
      | none => (st, [])
      | some c =>
          let conv' := { conv with
            messages := conv.messages ++ [{ role := "agent", content := message }] }
          let st1 := { st with conversations := setM sid conv' st.conversations }
          (st1, if wsOpen st1.openConns (some c) then [Send.agentMessageOut c message] else [])

/-- The `end_session` branch of `handleWebSocketMessage` (lines 1093-1140).
For AI-only sessions with more than 2 messages the registry eviction and
queue removal happen inside a 10-second `setTimeout`; we collapse that
delay and perform them immediately.  Note the ≤ 2-message branch deletes
the conversation but does not touch the waiting queue. -/
def handleEndSession (sid : String) (st : ServerState) : ServerState × List Send :=
  match lookupM sid st.conversations with
  | none => (st, [])
  | some conv =>
      if conv.hasHuman then handleEndChat sid "customer_ended" st
      else
        let survey :=
          if conv.messages.length > 2 ∧ wsOpen st.openConns conv.customerWs then
            [Send.satisfactionSurvey (conv.customerWs.getD 0) sid "ai_only"]
          else []
        let r : ServerState × List Send :=
          if conv.messages.length > 2 then
            let st1 := { st with conversations := delM sid st.conversations,
                                 customerTimeouts := delM sid st.customerTimeouts }
            if st1.waitingQueue.contains sid then
              let q' := st1.waitingQueue.erase sid
              ({ st1 with waitingQueue := q' },
               (st1.humanAgents.filter (fun p => wsOpen st1.openConns p.2.ws)).map
                 (fun p => Send.customerLeftQueue (p.2.ws.getD 0) sid q'.length))
            else (st1, [])
          else
            ({ st with conversations := delM sid st.conversations,
                       customerTimeouts := delM sid st.customerTimeouts }, [])
        let finalNote :=
          if wsOpen st.openConns conv.customerWs then
            [Send.sessionEnded (conv.customerWs.getD 0)]
          else []
        (r.1, survey ++ r.2 ++ finalNote)

/-- The agent half of the close handler: the first agent holding the
closed socket is detached — its record kept with `ws = null` — and, when
mid-session with a live conversation, a reconnect-grace timer is armed
(unless one already is) and the customer is notified. -/
def closeAgentCleanup (c : Nat) (st0 : ServerState) : ServerState × List Send :=
  match st0.humanAgents.find? (fun p => p.2.ws == some c) with
  | some pa =>
      let aid := pa.1
      let ad := pa.2
      let step : ServerState × List Send :=
        match lookupM aid st0.agentSessions with
        | some sid =>
            match lookupM sid st0.conversations with
            | some conv =>
                if conv.hasHuman then
                  let st' :=
                    if (lookupM aid st0.agentReconnectTimeouts).isNone then
                      setupAgentReconnectTimeout aid sid st0
                    else st0
                  (st',
                   if wsOpen st'.openConns conv.customerWs then
                     [Send.agentDisconnectedTemp (conv.customerWs.getD 0)]
                   else [])
                else (st0, [])
            | none => (st0, [])
        | none => (st0, [])
      ({ step.1 with humanAgents := setM aid { ad with ws := none } step.1.humanAgents },
       step.2)
  | none => (st0, [])

/-- The customer half of the close handler: the first conversation holding
the closed socket as customer socket has its timers cancelled, is dequeued
with a broadcast when queued, and gets a summary saved when human-handled;
the record itself and its stale `customerWs` are kept. -/
def closeCustomerCleanup (c : Nat) (st1 : ServerState) : ServerState × List Send :=
  match st1.conversations.find? (fun p => p.2.customerWs == some c) with
  | some pc =>
      let sid := pc.1
      let conv := pc.2
      let st2 := { st1 with customerTimeouts := delM sid st1.customerTimeouts,
                            customerIdleTimeouts := delM sid st1.customerIdleTimeouts }
      let step : ServerState × List Send :=
        if st2.waitingQueue.contains sid then
          let q' := st2.waitingQueue.erase sid
          ({ st2 with waitingQueue := q' },
           (st2.humanAgents.filter (fun p => wsOpen st2.openConns p.2.ws)).map
             (fun p => Send.customerLeftQueue (p.2.ws.getD 0) sid q'.length))
        else (st2, [])
      (if conv.hasHuman then saveChatHistory sid "customer_disconnected" step.1 else step.1,
       step.2)
  | none => (st1, [])

/-- The `wss.on('connection')` close handler (lines 1189-1253): the socket
leaves the open set, then the agent cleanup loop runs, then the customer
cleanup loop (each loop processes the first matching record and breaks, as
the source does). -/
def handleSocketClose (c : Nat) (st : ServerState) : ServerState × List Send :=
  let st0 := { st with openConns := st.openConns.erase c }
  let r1 := closeAgentCleanup c st0
  let r2 := closeCustomerCleanup c r1.1
  (r2.1, r1.2 ++ r2.2)

/-- Wall-clock advance: no handler runs, only time passes (timers become
eligible to fire once their deadline is ≤ `now`). -/
def tick (t : Nat) (st : ServerState) : ServerState := { st with now := st.now + t }

/-- Process start: every store empty.  `conns` is the set of transport
connections already open (opening a socket is transport-level and touches
no routing state). -/
def initialState (conns : List Nat) : ServerState :=
  { openConns := conns, conversations := [], humanAgents := [], waitingQueue := [],
    agentSessions := [], sessionAgentMap := [], customerTimeouts := [],
    customerIdleTimeouts := [], agentReconnectTimeouts := [], chatHistory := [], now := 0 }

/-- The backlink of agent `a` to session `s`: the agent's record exists
and points at `s`, and both agent-session maps (`agentSessions` and
`sessionAgentMap`) agree. -/
def agentBackOn (agents : List (String × AgentData)) (asess smap : List (String × String))
    (a : String) (s : String) : Prop :=
  (∃ ad, lookupM a agents = some ad ∧ ad.sessionId = some s) ∧
  lookupM a asess = some s ∧
  lookupM s smap = some a

/-- The bidirectional-consistency invariant over the five link-carrying
stores, strengthened with the auxiliary facts needed to push it through
the transitions: (0) `humanAgents` has no duplicate keys (it is a JS
`Map`); (1) `hasHuman = true` iff an assigned agent is set and fully
backlinked; (2) an AI-only session has no assigned agent; (3) every
`agentSessions` entry points to an existing conversation naming that
agent; (4) every armed reconnect-grace timer agrees with
`agentSessions`. -/
def InvOn (convs : List (String × Conversation)) (agents : List (String × AgentData))
    (asess smap : List (String × String)) (rt : List (String × (String × Nat))) : Prop :=
  (agents.map Prod.fst).Nodup ∧
  (∀ s conv, lookupM s convs = some conv →
     ((conv.hasHuman = true ↔ ∃ a, conv.assignedAgent = some a ∧ agentBackOn agents asess smap a s) ∧
      (conv.hasHuman = false → conv.assignedAgent = none))) ∧
  (∀ a s, lookupM a asess = some s →
     ∃ conv, lookupM s convs = some conv ∧ conv.assignedAgent = some a) ∧
  (∀ a p, lookupM a rt = some p → lookupM a asess = some p.1)

/-- The bidirectional-consistency invariant (spec §3 "Session" and §8
first property) of a server state. -/
def Inv (st : ServerState) : Prop :=
  InvOn st.conversations st.humanAgents st.agentSessions st.sessionAgentMap
    st.agentReconnectTimeouts

/-- `listAvailable()` of the spec (§4.2): the agents whose connection
handle is live — in the source, the `connectedAgents` filter of
`handleHumanRequest`.  An agent known but disconnected (`ws` null or
closed) is not in this list. -/
def listAvailable (st : ServerState) : List (String × AgentData) :=
  st.humanAgents.filter (fun p => wsOpen st.openConns p.2.ws)

/-- The queue invariant over an explicit queue and registry: the waiting
queue holds distinct session identities, and a queued session that exists
in the registry is not human-handled. -/
def QInvOn (q : List String) (convs : List (String × Conversation)) : Prop :=
  q.Nodup ∧
  ∀ s ∈ q, ∀ conv, lookupM s convs = some conv → conv.hasHuman = false

/-- The queue invariant of the spec (§3 "Queue entry") of a server
state. -/
def QInv (st : ServerState) : Prop := QInvOn st.waitingQueue st.conversations

/-- One transition of the routing engine: every event handler of
`src/server.js` plus the three timer firings (enabled only while armed and
expired) and wall-clock advance.  The `accept` constructor carries the one
side condition the bidirectional invariant needs (see the C1 theorems):
the accepting agent must not already be assigned to a session — the
source never checks this. -/
inductive Step : ServerState → ServerState → Prop where
  | customerMessage (w : Nat) (sid m : String) (ai : AiResponse) (st : ServerState) :
      Step st (handleCustomerMessage w sid m ai st).1
  | sessionRestore (w : Nat) (sid : String) (st : ServerState) :
      Step st (handleCustomerSessionRestore w sid st).1
  | agentJoin (w : Nat) (aid uname : String) (st : ServerState) :
      Step st (handleAgentJoin w aid uname st).1
  | humanRequest (sid : String) (info : Option String) (st : ServerState) :
      Step st (handleHumanRequest sid info st).1
  | accept (sid aid : String) (st : ServerState)
      (hFree : ∀ ad, lookupM aid st.humanAgents = some ad → ad.sessionId = none) :
      Step st (handleAcceptRequest sid aid st).1
  | agentMessage (sid m : String) (st : ServerState) :
      Step st (handleAgentMessage sid m st).1
  | endChat (sid reason : String) (st : ServerState) :
      Step st (handleEndChat sid reason st).1
  | endSession (sid : String) (st : ServerState) :
      Step st (handleEndSession sid st).1
  | socketClose (c : Nat) (st : ServerState) :
      Step st (handleSocketClose c st).1
  | fireCustomer (sid : String) (d : Nat) (st : ServerState)
      (h : lookupM sid st.customerTimeouts = some d) (hd : d ≤ st.now) :
      Step st (fireCustomerTimeout sid st).1
  | fireIdle (sid : String) (d : Nat) (st : ServerState)
      (h : lookupM sid st.customerIdleTimeouts = some d) (hd : d ≤ st.now) :
      Step st (fireCustomerIdleTimeout sid st).1
  | fireReconnect (aid sid : String) (d : Nat) (st : ServerState)
      (h : lookupM aid st.agentReconnectTimeouts = some (sid, d)) (hd : d ≤ st.now) :
      Step st (fireAgentReconnectTimeout aid sid st).1
  | timePasses (t : Nat) (st : ServerState) :
      Step st (tick t st)

/-!
Concrete runs used by the counterexamples and witnesses below.  All start
from `initialState` and apply the embedded handlers, so every state in
them is reachable.  Connections `100`/`101` are customer sockets and
`200` an agent socket.
-/

/-- Customer `s1` restores a session, agent `a1` joins, customer `s2`
restores a session, `s1` requests a human, `a1` accepts `s1`. -/
def exS5 : ServerState :=
  (handleAcceptRequest "s1" "a1"
    (handleHumanRequest "s1" none
      (handleCustomerSessionRestore 101 "s2"
        (handleAgentJoin 200 "a1" "Alice"
          (handleCustomerSessionRestore 100 "s1"
            (initialState [100, 200, 101])).1).1).1).1).1

/-- After `exS5`, session `s2` requests a human and the already-busy agent
`a1` accepts it as well — the source never checks the accepting agent's
status. -/
def exDoubleAccept : ServerState :=
  (handleAcceptRequest "s2" "a1" (handleHumanRequest "s2" none exS5).1).1

/-- After `exS5` (session `s1` human-handled), `s1` requests a human
again: the handler never checks `hasHuman`. -/
def exRequeued : ServerState := (handleHumanRequest "s1" none exS5).1

/-- After `exS5`, the customer idle timer for the human-handled `s1`
fires. -/
def exIdleFired : ServerState := (fireCustomerIdleTimeout "s1" exS5).1

/-- A customer restores session `c1` at time 0 (arming the idle timer for
deadline 630000), keeps chatting at time 629000, and the idle timer fires
at 630000 — one second after the last message. -/
def exActive : ServerState :=
  (handleCustomerMessage 100 "c1" "hello" (AiResponse.answer "hi")
    (tick 629000 (handleCustomerSessionRestore 100 "c1" (initialState [100])).1)).1

/-- The idle firing one second after the last customer message of
`exActive`. -/
def exActiveFired : ServerState := (fireCustomerIdleTimeout "c1" (tick 1000 exActive)).1

/-- Customer `q1` restores a session on socket 100, then socket 100
closes; the conversation keeps the dead handle as `customerWs`. -/
def exDeadCustomer : ServerState :=
  (handleSocketClose 100 (handleCustomerSessionRestore 100 "q1" (initialState [100])).1).1

/-- After `exS5`, the agent socket 200 closes mid-session (arming the
reconnect-grace timer), and the agent rejoins on socket 201. -/
def exAgentDropped : ServerState := (handleSocketClose 200 exS5).1

/-- A small handcrafted state for witnesses: one AI-only session "s"
(customer socket 1) waiting in the queue, two online agents "a"
(socket 2) and "b" (socket 3), one known-but-disconnected agent "c". -/
def wState : ServerState :=
  { openConns := [1, 2, 3],
    conversations := [("s",
      { customerWs := some 1, messages := [{ role := "user", content := "hi" }],
        hasHuman := false, agentWs := none, assignedAgent := none, agentName := none,
        customerInfo := none })],
    humanAgents := [
      ("a", { ws := some 2, userName := "Ann", status := "online", sessionId := none }),
      ("b", { ws := some 3, userName := "Bee", status := "online", sessionId := none }),
      ("c", { ws := none, userName := "Cam", status := "online", sessionId := none })],
    waitingQueue := ["s"],
    agentSessions := [], sessionAgentMap := [],
    customerTimeouts := [("s", 600000)], customerIdleTimeouts := [("s", 630000)],
    agentReconnectTimeouts := [], chatHistory := [], now := 0 }

/-- `wState` after agent "a" accepted "s" (computed by the handler). -/
def wStateTaken : ServerState := (handleAcceptRequest "s" "a" wState).1

/-- A handcrafted state where no agent has a live socket: agent "c" is
known but disconnected. -/
def wStateNoAgents : ServerState :=
  { openConns := [1],
    conversations := [("s",
      { customerWs := some 1, messages := [{ role := "user", content := "hi" }],
        hasHuman := false, agentWs := none, assignedAgent := none, agentName := none,
        customerInfo := none })],
    humanAgents := [("c", { ws := none, userName := "Cam", status := "online", sessionId := none })],
    waitingQueue := [],
    agentSessions := [], sessionAgentMap := [],
    customerTimeouts := [], customerIdleTimeouts := [],
    agentReconnectTimeouts := [], chatHistory := [], now := 0 }

/-- Conversation record of session "sA" in `c6St`. -/
def c6ConvA : Conversation :=
  { customerWs := some 10, messages := [], hasHuman := false, agentWs := none,
    assignedAgent := none, agentName := none, customerInfo := none }

/-- Conversation record of session "sB" in `c6St`. -/
def c6ConvB : Conversation :=
  { customerWs := some 11, messages := [], hasHuman := false, agentWs := none,
    assignedAgent := none, agentName := none, customerInfo := none }

/-- Two AI-only sessions "sA" (socket 10) and "sB" (socket 11), one online
agent "ag" (socket 20), empty queue. -/
def c6St : ServerState :=
  { openConns := [10, 11, 20],
    conversations := [("sA", c6ConvA), ("sB", c6ConvB)],
    humanAgents := [("ag", { ws := some 20, userName := "Ann", status := "online", sessionId := none })],
    waitingQueue := [],
    agentSessions := [], sessionAgentMap := [],
    customerTimeouts := [], customerIdleTimeouts := [],
    agentReconnectTimeouts := [], chatHistory := [], now := 0 }

/-- Conversation record of session "p" in `c7St`: human-handled by agent
"ag" whose socket has dropped. -/
def c7Conv : Conversation :=
  { customerWs := some 5, messages := [{ role := "user", content := "help" }],
    hasHuman := true, agentWs := none, assignedAgent := some "ag", agentName := some "Ann",
    customerInfo := none }

/-- A state with one human-handled session "p" whose agent "ag" is
disconnected mid-session: record kept with `ws = none`, both
agent-session maps intact, reconnect-grace timer armed. -/
def c7St : ServerState :=
  { openConns := [5],
    conversations := [("p", c7Conv)],
    humanAgents := [("ag", { ws := none, userName := "Ann", status := "busy", sessionId := some "p" })],
    waitingQueue := [],
    agentSessions := [("ag", "p")], sessionAgentMap := [("p", "ag")],
    customerTimeouts := [], customerIdleTimeouts := [],
    agentReconnectTimeouts := [("ag", ("p", 300000))], chatHistory := [], now := 0 }

theorem lookupM_setM_self {α : Type} (k : String) (v : α) (m : List (String × α)) :
    lookupM k (setM k v m) = some v := by
  induction m with
  | nil => simp [setM, lookupM]
  | cons p rest ih =>
      obtain ⟨a, b⟩ := p
      by_cases h : a = k
      · simp [setM, h, lookupM]
      · simp [setM, h, lookupM, ih]

theorem lookupM_setM_ne {α : Type} {k k' : String} (h : k' ≠ k) (v : α)
    (m : List (String × α)) : lookupM k' (setM k v m) = lookupM k' m := by
  have h' : ¬(k = k') := fun hh => h hh.symm
  induction m with
  | nil => simp [setM, lookupM, h']
  | cons p rest ih =>
      obtain ⟨a, b⟩ := p
      by_cases hp : a = k
      · subst hp
        simp [setM, lookupM, h']
      · by_cases hp' : a = k'
        · simp [setM, hp, lookupM, hp', h', h]
        · simp [setM, hp, lookupM, hp', ih]

theorem lookupM_delM_self {α : Type} (k : String) (m : List (String × α)) :
    lookupM k (delM k m) = none := by
  induction m with
  | nil => simp [delM, lookupM]
  | cons p rest ih =>
      obtain ⟨a, b⟩ := p
      by_cases h : a = k
      · simp [delM, h, ih]
      · simp [delM, h, lookupM, ih]

theorem lookupM_delM_ne {α : Type} {k k' : String} (h : k' ≠ k)
    (m : List (String × α)) : lookupM k' (delM k m) = lookupM k' m := by
  induction m with
  | nil => simp [delM]
  | cons p rest ih =>
      obtain ⟨a, b⟩ := p
      by_cases hp : a = k
      · subst hp
        have h' : ¬(a = k') := fun hh => h hh.symm
        simp [delM, lookupM, h', ih]
      · by_cases hp' : a = k'
        · simp [delM, hp, lookupM, hp', h, ih]
        · simp [delM, hp, lookupM, hp', ih]

theorem lookupM_mem {α : Type} {k : String} {v : α} {m : List (String × α)}
    (h : lookupM k m = some v) : (k, v) ∈ m := by
  induction m with
  | nil => simp [lookupM] at h
  | cons p rest ih =>
      obtain ⟨a, b⟩ := p
      by_cases hp : a = k
      · simp [lookupM, hp] at h
        subst hp
        subst h
        exact List.mem_cons_self _ _
      · simp [lookupM, hp] at h
        exact List.mem_cons_of_mem _ (ih h)

theorem mem_setM_of_ne {α : Type} {k : String} {v : α} {p : String × α}
    {m : List (String × α)} (h : p.1 ≠ k) : p ∈ setM k v m ↔ p ∈ m := by
  induction m with
  | nil =>
      have h2 : ¬(p = (k, v)) := fun hh => h (by rw [hh])
      simp [setM, h2]
  | cons q rest ih =>
      obtain ⟨a, b⟩ := q
      by_cases hq : a = k
      · subst hq
        have h2 : ¬(p = (a, v)) := fun hh => h (by rw [hh])
        have h3 : ¬(p = (a, b)) := fun hh => h (by rw [hh])
        simp [setM, h2, h3]
      · simp [setM, hq, ih]


theorem fst_setM {α : Type} (k : String) (v : α) (m : List (String × α)) :
    (setM k v m).map Prod.fst =
      if k ∈ m.map Prod.fst then m.map Prod.fst else m.map Prod.fst ++ [k] := by
  induction m with
  | nil => simp [setM]
  | cons p rest ih =>
      obtain ⟨a, b⟩ := p
      by_cases hp : a = k
      · subst hp
        simp [setM]
      · have hne : ¬(k = a) := fun hh => hp hh.symm
        by_cases hk : k ∈ rest.map Prod.fst
        · simp [setM, hp, hk, hne, ih]
        · simp [setM, hp, hk, hne, ih]

theorem nodupKeys_setM {α : Type} {k : String} {v : α} {m : List (String × α)}
    (h : (m.map Prod.fst).Nodup) : ((setM k v m).map Prod.fst).Nodup := by
  rw [fst_setM]
  by_cases hk : k ∈ m.map Prod.fst
  · simpa [hk] using h
  · simp [hk, List.nodup_append, h]

theorem delM_sublist {α : Type} (k : String) (m : List (String × α)) :
    (delM k m).Sublist m := by
  induction m with
  | nil => simp [delM]
  | cons p rest ih =>
      by_cases hp : p.1 = k
      · simp [delM, hp]
        exact ih.cons p
      · simp [delM, hp]
        exact ih

theorem nodupKeys_delM {α : Type} {k : String} {m : List (String × α)}
    (h : (m.map Prod.fst).Nodup) : ((delM k m).map Prod.fst).Nodup :=
  ((delM_sublist k m).map Prod.fst).nodup h

theorem lookupM_of_mem_nodup {α : Type} {k : String} {v : α} {m : List (String × α)}
    (hm : (k, v) ∈ m) (hnd : (m.map Prod.fst).Nodup) : lookupM k m = some v := by
  induction m with
  | nil => simp at hm
  | cons p rest ih =>
      obtain ⟨a, b⟩ := p
      simp at hnd
      rcases List.mem_cons.mp hm with h1 | h1
      · rw [← h1]
        simp [lookupM]
      · have hk : a ≠ k := by
          intro hak
          subst hak
          exact hnd.1 v (by simpa using h1)
        simp [lookupM, hk]
        exact ih h1 hnd.2


theorem lookupM_delM_some {α : Type} {k k' : String} {v : α} {m : List (String × α)}
    (h : lookupM k' (delM k m) = some v) : lookupM k' m = some v ∧ k' ≠ k := by
  by_cases hk : k' = k
  · subst hk
    rw [lookupM_delM_self] at h
    cases h
  · rw [lookupM_delM_ne hk] at h
    exact ⟨h, hk⟩

theorem agentBackOn_setAgentSame {agents : List (String × AgentData)}
    {asess smap : List (String × String)} {aid : String} {ad ad' : AgentData}
    (hl : lookupM aid agents = some ad) (hsid : ad'.sessionId = ad.sessionId)
    (a s : String) :
    agentBackOn (setM aid ad' agents) asess smap a s ↔ agentBackOn agents asess smap a s := by
  unfold agentBackOn
  by_cases ha : a = aid
  · subst ha
    rw [lookupM_setM_self]
    simp [hl, hsid]
  · rw [lookupM_setM_ne ha]

theorem agentBackOn_noSession {agents : List (String × AgentData)}
    {asess smap : List (String × String)} {aid : String} (ad' : AgentData)
    (hasess : lookupM aid asess = none) (a s : String) :
    agentBackOn (setM aid ad' agents) asess smap a s ↔ agentBackOn agents asess smap a s := by
  unfold agentBackOn
  by_cases ha : a = aid
  · subst ha
    simp [hasess]
  · rw [lookupM_setM_ne ha]

theorem InvOn_setConv {convs : List (String × Conversation)}
    {agents : List (String × AgentData)} {asess smap : List (String × String)}
    {rt : List (String × (String × Nat))} {sid : String} {conv conv' : Conversation}
    (h : InvOn convs agents asess smap rt)
    (hl : lookupM sid convs = some conv)
    (hh : conv'.hasHuman = conv.hasHuman) (ha : conv'.assignedAgent = conv.assignedAgent) :
    InvOn (setM sid conv' convs) agents asess smap rt := by
  obtain ⟨h0, h1, h2, h3⟩ := h
  refine ⟨h0, ?_, ?_, h3⟩
  · intro s c hlook
    by_cases hs : s = sid
    · subst hs
      rw [lookupM_setM_self] at hlook
      injection hlook with hc
      subst hc
      rw [hh, ha]
      exact h1 _ conv hl
    · rw [lookupM_setM_ne hs] at hlook
      exact h1 s c hlook
  · intro a s hlook2
    obtain ⟨c2, hc2, hass⟩ := h2 a s hlook2
    by_cases hs : s = sid
    · subst hs
      rw [hl] at hc2
      injection hc2 with hcc
      refine ⟨conv', lookupM_setM_self _ _ _, ?_⟩
      rw [ha, hcc]
      exact hass
    · refine ⟨c2, ?_, hass⟩
      rw [lookupM_setM_ne hs]
      exact hc2

theorem InvOn_freshConv {convs : List (String × Conversation)}
    {agents : List (String × AgentData)} {asess smap : List (String × String)}
    {rt : List (String × (String × Nat))} {sid : String} {conv' : Conversation}
    (h : InvOn convs agents asess smap rt)
    (hl : lookupM sid convs = none)
    (hh : conv'.hasHuman = false) (ha : conv'.assignedAgent = none) :
    InvOn (setM sid conv' convs) agents asess smap rt := by
  obtain ⟨h0, h1, h2, h3⟩ := h
  refine ⟨h0, ?_, ?_, h3⟩
  · intro s c hlook
    by_cases hs : s = sid
    · subst hs
      rw [lookupM_setM_self] at hlook
      injection hlook with hc
      subst hc
      rw [hh, ha]
      simp
    · rw [lookupM_setM_ne hs] at hlook
      exact h1 s c hlook
  · intro a s hlook2
    obtain ⟨c2, hc2, hass⟩ := h2 a s hlook2
    by_cases hs : s = sid
    · subst hs
      rw [hl] at hc2
      cases hc2
    · refine ⟨c2, ?_, hass⟩
      rw [lookupM_setM_ne hs]
      exact hc2

theorem InvOn_delConv {convs : List (String × Conversation)}
    {agents : List (String × AgentData)} {asess smap : List (String × String)}
    {rt : List (String × (String × Nat))} {sid : String} {conv : Conversation}
    (h : InvOn convs agents asess smap rt)
    (hl : lookupM sid convs = some conv) (hh : conv.hasHuman = false) :
    InvOn (delM sid convs) agents asess smap rt := by
  obtain ⟨h0, h1, h2, h3⟩ := h
  refine ⟨h0, ?_, ?_, h3⟩
  · intro s c hlook
    obtain ⟨hlc, hs⟩ := lookupM_delM_some hlook
    exact h1 s c hlc
  · intro a s hlook2
    obtain ⟨c2, hc2, hass⟩ := h2 a s hlook2
    by_cases hs : s = sid
    · subst hs
      rw [hl] at hc2
      injection hc2 with hcc
      have : conv.assignedAgent = none := (h1 _ conv hl).2 hh
      rw [hcc, hass] at this
      cases this
    · refine ⟨c2, ?_, hass⟩
      rw [lookupM_delM_ne hs]
      exact hc2

theorem InvOn_setAgentSameSession {convs : List (String × Conversation)}
    {agents : List (String × AgentData)} {asess smap : List (String × String)}
    {rt : List (String × (String × Nat))} {aid : String} {ad ad' : AgentData}
    (h : InvOn convs agents asess smap rt)
    (hl : lookupM aid agents = some ad) (hsid : ad'.sessionId = ad.sessionId) :
    InvOn convs (setM aid ad' agents) asess smap rt := by
  obtain ⟨h0, h1, h2, h3⟩ := h
  refine ⟨nodupKeys_setM h0, ?_, h2, h3⟩
  intro s c hlook
  have old := h1 s c hlook
  constructor
  · constructor
    · intro hH
      obtain ⟨a, haa, hback⟩ := old.1.mp hH
      exact ⟨a, haa, (agentBackOn_setAgentSame hl hsid a s).mpr hback⟩
    · intro hex
      obtain ⟨a, haa, hback⟩ := hex
      exact old.1.mpr ⟨a, haa, (agentBackOn_setAgentSame hl hsid a s).mp hback⟩
  · exact old.2

theorem InvOn_setAgentNoSession {convs : List (String × Conversation)}
    {agents : List (String × AgentData)} {asess smap : List (String × String)}
    {rt : List (String × (String × Nat))} {aid : String} {ad' : AgentData}
    (h : InvOn convs agents asess smap rt)
    (hasess : lookupM aid asess = none) :
    InvOn convs (setM aid ad' agents) asess smap rt := by
  obtain ⟨h0, h1, h2, h3⟩ := h
  refine ⟨nodupKeys_setM h0, ?_, h2, h3⟩
  intro s c hlook
  have old := h1 s c hlook
  constructor
  · constructor
    · intro hH
      obtain ⟨a, haa, hback⟩ := old.1.mp hH
      exact ⟨a, haa, (agentBackOn_noSession ad' hasess a s).mpr hback⟩
    · intro hex
      obtain ⟨a, haa, hback⟩ := hex
      exact old.1.mpr ⟨a, haa, (agentBackOn_noSession ad' hasess a s).mp hback⟩
  · exact old.2

theorem InvOn_armReconnect {convs : List (String × Conversation)}
    {agents : List (String × AgentData)} {asess smap : List (String × String)}
    {rt : List (String × (String × Nat))} {aid sid : String} {d : Nat}
    (h : InvOn convs agents asess smap rt)
    (hasess : lookupM aid asess = some sid) :
    InvOn convs agents asess smap (setM aid (sid, d) rt) := by
  obtain ⟨h0, h1, h2, h3⟩ := h
  refine ⟨h0, h1, h2, ?_⟩
  intro a p hlook
  by_cases ha : a = aid
  · subst ha
    rw [lookupM_setM_self] at hlook
    injection hlook with hp
    rw [← hp]
    exact hasess
  · rw [lookupM_setM_ne ha] at hlook
    exact h3 a p hlook

theorem InvOn_delReconnect {convs : List (String × Conversation)}
    {agents : List (String × AgentData)} {asess smap : List (String × String)}
    {rt : List (String × (String × Nat))} {aid : String}
    (h : InvOn convs agents asess smap rt) :
    InvOn convs agents asess smap (delM aid rt) := by
  obtain ⟨h0, h1, h2, h3⟩ := h
  refine ⟨h0, h1, h2, ?_⟩
  intro a p hlook
  exact h3 a p (lookupM_delM_some hlook).1

theorem InvOn_delLinks {convs : List (String × Conversation)}
    {agents : List (String × AgentData)} {asess smap : List (String × String)}
    {rt : List (String × (String × Nat))} {aid sid : String}
    (h : InvOn convs agents asess smap rt)
    (hasess : lookupM aid asess = none)
    (hconv : ∀ c, lookupM sid convs = some c → c.assignedAgent = none) :
    InvOn convs agents (delM aid asess) (delM sid smap) (delM aid rt) := by
  obtain ⟨h0, h1, h2, h3⟩ := h
  refine ⟨h0, ?_, ?_, ?_⟩
  · intro s c hlook
    have old := h1 s c hlook
    by_cases hs : s = sid
    · subst hs
      have hassm := hconv c hlook
      constructor
      · constructor
        · intro hH
          obtain ⟨a, haa, _⟩ := old.1.mp hH
          rw [hassm] at haa
          cases haa
        · intro hex
          obtain ⟨a, haa, _⟩ := hex
          rw [hassm] at haa
          cases haa
      · exact old.2
    · constructor
      · constructor
        · intro hH
          obtain ⟨a, haa, hback⟩ := old.1.mp hH
          obtain ⟨hrec, hba, hbs⟩ := hback
          have hane : a ≠ aid := by
            intro haeq
            subst haeq
            rw [hasess] at hba
            cases hba
          refine ⟨a, haa, hrec, ?_, ?_⟩
          · rw [lookupM_delM_ne hane]
            exact hba
          · rw [lookupM_delM_ne hs]
            exact hbs
        · intro hex
          obtain ⟨a, haa, hrec, hba, hbs⟩ := hex
          refine old.1.mpr ⟨a, haa, hrec, (lookupM_delM_some hba).1, (lookupM_delM_some hbs).1⟩
      · exact old.2
  · intro a s hlook2
    exact h2 a s (lookupM_delM_some hlook2).1
  · intro a p hlook3
    obtain ⟨hlp, hane⟩ := lookupM_delM_some hlook3
    rw [lookupM_delM_ne hane]
    exact h3 a p hlp


theorem InvOn_endLinks {convs : List (String × Conversation)}
    {agents : List (String × AgentData)} {asess smap : List (String × String)}
    {rt : List (String × (String × Nat))} {sid a : String}
    {conv conv' : Conversation} (ad' : AgentData)
    (h : InvOn convs agents asess smap rt)
    (hlc : lookupM sid convs = some conv)
    (haa : conv.assignedAgent = some a)
    (hh' : conv'.hasHuman = false) (ha' : conv'.assignedAgent = none) :
    InvOn (setM sid conv' convs) (setM a ad' agents) (delM a asess) (delM sid smap)
      (delM a rt) := by
  obtain ⟨h0, h1, h2, h3⟩ := h
  have hht : conv.hasHuman = true := by
    cases hcv : conv.hasHuman
    · have hnone := (h1 sid conv hlc).2 hcv
      rw [haa] at hnone
      cases hnone
    · rfl
  obtain ⟨a2, ha2, hback2⟩ := (h1 sid conv hlc).1.mp hht
  rw [haa] at ha2
  injection ha2 with ha2e
  subst ha2e
  obtain ⟨⟨ad0, had0, hads0⟩, hba0, hbs0⟩ := hback2
  refine ⟨nodupKeys_setM h0, ?_, ?_, ?_⟩
  · intro s c hlook
    by_cases hs : s = sid
    · subst hs
      rw [lookupM_setM_self] at hlook
      injection hlook with hc
      subst hc
      constructor
      · rw [hh', ha']
        simp
      · intro _
        exact ha'
    · rw [lookupM_setM_ne hs] at hlook
      have old := h1 s c hlook
      constructor
      · constructor
        · intro hH
          obtain ⟨a3, ha3, ⟨ad3, had3, hads3⟩, hba3, hbs3⟩ := old.1.mp hH
          have hne3 : a3 ≠ a := by
            intro heq
            subst heq
            rw [hba0] at hba3
            injection hba3 with hse
            exact hs hse.symm
          refine ⟨a3, ha3, ⟨ad3, ?_, hads3⟩, ?_, ?_⟩
          · rw [lookupM_setM_ne hne3]
            exact had3
          · rw [lookupM_delM_ne hne3]
            exact hba3
          · rw [lookupM_delM_ne hs]
            exact hbs3
        · intro hex
          obtain ⟨a3, ha3, ⟨ad3, had3, hads3⟩, hba3, hbs3⟩ := hex
          obtain ⟨hba3o, hne3⟩ := lookupM_delM_some hba3
          obtain ⟨hbs3o, _⟩ := lookupM_delM_some hbs3
          rw [lookupM_setM_ne hne3] at had3
          exact old.1.mpr ⟨a3, ha3, ⟨ad3, had3, hads3⟩, hba3o, hbs3o⟩
      · exact old.2
  · intro a3 s hlook2
    obtain ⟨hlo, hne3⟩ := lookupM_delM_some hlook2
    obtain ⟨c2, hc2, hass2⟩ := h2 a3 s hlo
    by_cases hs : s = sid
    · subst hs
      rw [hlc] at hc2
      injection hc2 with hcc
      rw [← hcc, haa] at hass2
      injection hass2 with he
      exact absurd he.symm hne3
    · refine ⟨c2, ?_, hass2⟩
      rw [lookupM_setM_ne hs]
      exact hc2
  · intro a3 p hlook3
    obtain ⟨hlo, hne3⟩ := lookupM_delM_some hlook3
    rw [lookupM_delM_ne hne3]
    exact h3 a3 p hlo

theorem InvOn_acceptLinks {convs : List (String × Conversation)}
    {agents : List (String × AgentData)} {asess smap : List (String × String)}
    {rt : List (String × (String × Nat))} {sid aid : String}
    {conv conv' : Conversation} {ad ad' : AgentData}
    (h : InvOn convs agents asess smap rt)
    (hlc : lookupM sid convs = some conv)
    (hhf : conv.hasHuman = false)
    (had : lookupM aid agents = some ad)
    (hfree : ad.sessionId = none)
    (hh' : conv'.hasHuman = true) (ha' : conv'.assignedAgent = some aid)
    (had' : ad'.sessionId = some sid) :
    InvOn (setM sid conv' convs) (setM aid ad' agents) (setM aid sid asess)
      (setM sid aid smap) rt := by
  obtain ⟨h0, h1, h2, h3⟩ := h
  have hnoa : lookupM aid asess = none := by
    cases hsa : lookupM aid asess with
    | none => rfl
    | some s2 =>
        obtain ⟨c2, hc2, hass2⟩ := h2 aid s2 hsa
        have hht2 : c2.hasHuman = true := by
          cases hcv : c2.hasHuman
          · have := (h1 s2 c2 hc2).2 hcv
            rw [hass2] at this
            cases this
          · rfl
        obtain ⟨a3, ha3, ⟨ad3, had3, hads3⟩, _, _⟩ := (h1 s2 c2 hc2).1.mp hht2
        rw [hass2] at ha3
        injection ha3 with ha3e
        subst ha3e
        rw [had] at had3
        injection had3 with hade
        rw [← hade, hfree] at hads3
        cases hads3
  have hcnone : conv.assignedAgent = none := (h1 sid conv hlc).2 hhf
  refine ⟨nodupKeys_setM h0, ?_, ?_, ?_⟩
  · intro s c hlook
    by_cases hs : s = sid
    · subst hs
      rw [lookupM_setM_self] at hlook
      injection hlook with hc
      subst hc
      constructor
      · constructor
        · intro _
          refine ⟨aid, ha', ⟨ad', lookupM_setM_self _ _ _, had'⟩, lookupM_setM_self _ _ _,
            lookupM_setM_self _ _ _⟩
        · intro _
          exact hh'
      · intro hf
        rw [hh'] at hf
        cases hf
    · rw [lookupM_setM_ne hs] at hlook
      have old := h1 s c hlook
      constructor
      · constructor
        · intro hH
          obtain ⟨a3, ha3, ⟨ad3, had3, hads3⟩, hba3, hbs3⟩ := old.1.mp hH
          have hne3 : a3 ≠ aid := by
            intro heq
            subst heq
            rw [had] at had3
            injection had3 with hade
            rw [← hade, hfree] at hads3
            cases hads3
          refine ⟨a3, ha3, ⟨ad3, ?_, hads3⟩, ?_, ?_⟩
          · rw [lookupM_setM_ne hne3]
            exact had3
          · rw [lookupM_setM_ne hne3]
            exact hba3
          · rw [lookupM_setM_ne hs]
            exact hbs3
        · intro hex
          obtain ⟨a3, ha3, ⟨ad3, had3, hads3⟩, hba3, hbs3⟩ := hex
          have hne3 : a3 ≠ aid := by
            intro heq
            subst heq
            rw [lookupM_setM_self] at hba3
            injection hba3 with hse
            exact hs hse.symm
          rw [lookupM_setM_ne hne3] at had3 hba3
          rw [lookupM_setM_ne hs] at hbs3
          exact old.1.mpr ⟨a3, ha3, ⟨ad3, had3, hads3⟩, hba3, hbs3⟩
      · exact old.2
  · intro a3 s hlook2
    by_cases hne3 : a3 = aid
    · subst hne3
      rw [lookupM_setM_self] at hlook2
      injection hlook2 with hse
      subst hse
      exact ⟨conv', lookupM_setM_self _ _ _, ha'⟩
    · rw [lookupM_setM_ne hne3] at hlook2
      obtain ⟨c2, hc2, hass2⟩ := h2 a3 s hlook2
      by_cases hs : s = sid
      · subst hs
        rw [hlc] at hc2
        injection hc2 with hcc
        rw [← hcc, hcnone] at hass2
        cases hass2
      · refine ⟨c2, ?_, hass2⟩
        rw [lookupM_setM_ne hs]
        exact hc2
  · intro a3 p hlook3
    have old := h3 a3 p hlook3
    by_cases hne3 : a3 = aid
    · subst hne3
      rw [hnoa] at old
      cases old
    · rw [lookupM_setM_ne hne3]
      exact old

theorem InvOn_restoreAgent {convs : List (String × Conversation)}
    {agents : List (String × AgentData)} {asess smap : List (String × String)}
    {rt : List (String × (String × Nat))} {prev aid : String}
    {conv conv' : Conversation} {ad' : AgentData}
    (h : InvOn convs agents asess smap rt)
    (hba : lookupM aid asess = some prev)
    (hlc : lookupM prev convs = some conv)
    (hh : conv.hasHuman = true) (haa : conv.assignedAgent = some aid)
    (had' : ad'.sessionId = some prev)
    (hch : conv'.hasHuman = conv.hasHuman) (hca : conv'.assignedAgent = conv.assignedAgent) :
    InvOn (setM prev conv' convs) (setM aid ad' agents) asess smap rt := by
  obtain ⟨h0, h1, h2, h3⟩ := h
  obtain ⟨a2, ha2, hback2⟩ := (h1 prev conv hlc).1.mp hh
  rw [haa] at ha2
  injection ha2 with ha2e
  subst ha2e
  obtain ⟨⟨ad0, had0, hads0⟩, hba0, hbs0⟩ := hback2
  refine ⟨nodupKeys_setM h0, ?_, ?_, h3⟩
  · intro s c hlook
    by_cases hs : s = prev
    · subst hs
      rw [lookupM_setM_self] at hlook
      injection hlook with hc
      subst hc
      constructor
      · constructor
        · intro _
          exact ⟨aid, by rw [hca, haa], ⟨ad', lookupM_setM_self _ _ _, had'⟩, hba, hbs0⟩
        · intro _
          rw [hch]
          exact hh
      · intro hf
        rw [hch, hh] at hf
        cases hf
    · rw [lookupM_setM_ne hs] at hlook
      have old := h1 s c hlook
      constructor
      · constructor
        · intro hH
          obtain ⟨a3, ha3, ⟨ad3, had3, hads3⟩, hba3, hbs3⟩ := old.1.mp hH
          have hne3 : a3 ≠ aid := by
            intro heq
            subst heq
            rw [hba] at hba3
            injection hba3 with hse
            exact hs hse.symm
          refine ⟨a3, ha3, ⟨ad3, ?_, hads3⟩, hba3, hbs3⟩
          rw [lookupM_setM_ne hne3]
          exact had3
        · intro hex
          obtain ⟨a3, ha3, ⟨ad3, had3, hads3⟩, hba3, hbs3⟩ := hex
          have hne3 : a3 ≠ aid := by
            intro heq
            subst heq
            rw [hba] at hba3
            injection hba3 with hse
            exact hs hse.symm
          rw [lookupM_setM_ne hne3] at had3
          exact old.1.mpr ⟨a3, ha3, ⟨ad3, had3, hads3⟩, hba3, hbs3⟩
      · exact old.2
  · intro a3 s hlook2
    obtain ⟨c2, hc2, hass2⟩ := h2 a3 s hlook2
    by_cases hs : s = prev
    · subst hs
      rw [hlc] at hc2
      injection hc2 with hcc
      refine ⟨conv', lookupM_setM_self _ _ _, ?_⟩
      rw [hca, hcc]
      exact hass2
    · refine ⟨c2, ?_, hass2⟩
      rw [lookupM_setM_ne hs]
      exact hc2


theorem invP_saveChatHistory (sid reason : String) (st : ServerState) (h : Inv st) :
    Inv (saveChatHistory sid reason st) := by
  unfold saveChatHistory
  split
  · exact h
  · exact h

theorem invP_endChat (sid reason : String) (st : ServerState) (h : Inv st) :
    Inv (handleEndChat sid reason st).1 := by
  cases hlc : lookupM sid st.conversations with
  | none =>
      simp only [handleEndChat, hlc]
      exact h
  | some conv =>
      cases hag : conv.assignedAgent with
      | none =>
          have hhf : conv.hasHuman = false := by
            cases hcv : conv.hasHuman
            · rfl
            · obtain ⟨a, haa, _⟩ := (h.2.1 sid conv hlc).1.mp hcv
              rw [hag] at haa
              cases haa
          simp only [handleEndChat, saveChatHistory, hlc, hag]
          exact InvOn_setConv h hlc hhf.symm hag.symm
      | some a =>
          have hht : conv.hasHuman = true := by
            cases hcv : conv.hasHuman
            · have hthis := (h.2.1 sid conv hlc).2 hcv
              rw [hag] at hthis
              cases hthis
            · rfl
          obtain ⟨a2, ha2, hback⟩ := (h.2.1 sid conv hlc).1.mp hht
          rw [hag] at ha2
          injection ha2 with ha2e
          subst ha2e
          obtain ⟨⟨ad0, had0, hads0⟩, hba0, hbs0⟩ := hback
          simp only [handleEndChat, saveChatHistory, hlc, hag, had0]
          exact InvOn_endLinks _ h hlc hag rfl rfl

theorem invP_fireCustomer (sid : String) (st : ServerState) (h : Inv st) :
    Inv (fireCustomerTimeout sid st).1 := by
  unfold fireCustomerTimeout
  split
  · split
    · exact h
    · split
      · exact h
      · exact h
  · exact h

theorem invP_fireIdle (sid : String) (st : ServerState) (h : Inv st) :
    Inv (fireCustomerIdleTimeout sid st).1 := by
  cases hlc : lookupM sid st.conversations with
  | none =>
      simp only [fireCustomerIdleTimeout, hlc]
      exact h
  | some conv =>
      cases hcv : conv.hasHuman with
      | true =>
          simp only [fireCustomerIdleTimeout, hlc, hcv, if_true]
          exact invP_endChat sid "customer_idle" st h
      | false =>
          simp only [fireCustomerIdleTimeout, hlc, hcv, Bool.false_eq_true, if_false]
          exact InvOn_delConv h hlc hcv


theorem invP_accept (sid aid : String) (st : ServerState) (h : Inv st)
    (hFree : ∀ ad, lookupM aid st.humanAgents = some ad → ad.sessionId = none) :
    Inv (handleAcceptRequest sid aid st).1 := by
  cases hlc : lookupM sid st.conversations with
  | none =>
      cases had : lookupM aid st.humanAgents with
      | none =>
          simp only [handleAcceptRequest, hlc, had]
          exact h
      | some ad =>
          simp only [handleAcceptRequest, hlc, had]
          exact h
  | some conv =>
      cases had : lookupM aid st.humanAgents with
      | none =>
          simp only [handleAcceptRequest, hlc, had]
          exact h
      | some ad =>
          cases hhu : conv.hasHuman with
          | true =>
              simp only [handleAcceptRequest, hlc, had, hhu, if_true]
              exact h
          | false =>
              simp only [handleAcceptRequest, clearCustomerTimeout, hlc, had, hhu,
                Bool.false_eq_true, if_false]
              exact InvOn_acceptLinks h hlc hhu had (hFree ad had) rfl rfl rfl

theorem invP_reconnection (w : Nat) (aid uname : String) (st : ServerState) (h : Inv st) :
    Inv (handleAgentReconnection w aid uname st).1 := by
  have hDel : InvOn st.conversations st.humanAgents st.agentSessions st.sessionAgentMap
      (delM aid st.agentReconnectTimeouts) := InvOn_delReconnect h
  cases hba : lookupM aid st.agentSessions with
  | none =>
      simp only [handleAgentReconnection, hba]
      exact hDel
  | some prev =>
      obtain ⟨c2, hc2, hass2⟩ := h.2.2.1 aid prev hba
      cases hlc : lookupM prev st.conversations with
      | none =>
          rw [hlc] at hc2
          cases hc2
      | some conv =>
          rw [hlc] at hc2
          injection hc2 with hcc
          have hassigned : conv.assignedAgent = some aid := by
            rw [hcc]
            exact hass2
          have hht : conv.hasHuman = true := by
            cases hcv : conv.hasHuman
            · have hthis := (h.2.1 prev conv hlc).2 hcv
              rw [hassigned] at hthis
              cases hthis
            · rfl
          simp only [handleAgentReconnection, hba, hlc]
          rw [if_pos ⟨hht, hassigned⟩]
          exact InvOn_restoreAgent hDel hba hlc hht hassigned rfl rfl rfl

theorem reconnection_false_asess (w : Nat) (aid uname : String) (st : ServerState)
    (hb : (handleAgentReconnection w aid uname st).2.2 = false) :
    lookupM aid (handleAgentReconnection w aid uname st).1.agentSessions = none := by
  cases hba : lookupM aid st.agentSessions with
  | none =>
      simp only [handleAgentReconnection, hba]
  | some prev =>
      cases hlc : lookupM prev st.conversations with
      | none =>
          simp only [handleAgentReconnection, hba, hlc]
          exact lookupM_delM_self _ _
      | some conv =>
          by_cases hcond : conv.hasHuman = true ∧ conv.assignedAgent = some aid
          · exfalso
            simp only [handleAgentReconnection, hba, hlc] at hb
            rw [if_pos hcond] at hb
            cases hb
          · simp only [handleAgentReconnection, hba, hlc]
            rw [if_neg hcond]
            exact lookupM_delM_self _ _

theorem invP_agentJoin (w : Nat) (aid uname : String) (st : ServerState) (h : Inv st) :
    Inv (handleAgentJoin w aid uname st).1 := by
  have hrec := invP_reconnection w aid uname st h
  cases hb : (handleAgentReconnection w aid uname st).2.2 with
  | true =>
      simp only [handleAgentJoin, hb, if_true]
      exact hrec
  | false =>
      have hnone := reconnection_false_asess w aid uname st hb
      cases hex : lookupM aid (handleAgentReconnection w aid uname st).1.humanAgents with
      | some existing =>
          simp only [handleAgentJoin, hb, Bool.false_eq_true, if_false, hex]
          exact InvOn_setAgentSameSession hrec hex rfl
      | none =>
          simp only [handleAgentJoin, hb, Bool.false_eq_true, if_false, hex]
          exact InvOn_setAgentNoSession hrec hnone

theorem invP_fireReconnect (aid sid : String) (d : Nat) (st : ServerState) (h : Inv st)
    (ht : lookupM aid st.agentReconnectTimeouts = some (sid, d)) :
    Inv (fireAgentReconnectTimeout aid sid st).1 := by
  have hba : lookupM aid st.agentSessions = some sid := h.2.2.2 aid (sid, d) ht
  obtain ⟨c2, hc2, hass2⟩ := h.2.2.1 aid sid hba
  have hht : c2.hasHuman = true := by
    cases hcv : c2.hasHuman
    · have hthis := (h.2.1 sid c2 hc2).2 hcv
      rw [hass2] at hthis
      cases hthis
    · rfl
  obtain ⟨a2, ha2, hback⟩ := (h.2.1 sid c2 hc2).1.mp hht
  rw [hass2] at ha2
  injection ha2 with ha2e
  subst ha2e
  obtain ⟨⟨ad0, had0, hads0⟩, hba0, hbs0⟩ := hback
  simp only [fireAgentReconnectTimeout, hc2]
  rw [if_pos hass2]
  simp only [handleEndChat, saveChatHistory, hc2, hass2, had0]
  refine InvOn_delLinks (InvOn_endLinks
    { ad0 with status := "online", sessionId := none } h hc2 hass2 rfl rfl)
    (lookupM_delM_self _ _) ?_
  intro c hlc2
  rw [lookupM_setM_self] at hlc2
  injection hlc2 with hcc
  rw [← hcc]


theorem invP_sessionRestore (w : Nat) (sid : String) (st : ServerState) (h : Inv st) :
    Inv (handleCustomerSessionRestore w sid st).1 := by
  cases hlc : lookupM sid st.conversations with
  | some conv =>
      simp only [handleCustomerSessionRestore, setupCustomerIdleTimeout,
        clearCustomerIdleTimeout, hlc]
      exact InvOn_setConv h hlc rfl rfl
  | none =>
      simp only [handleCustomerSessionRestore, setupCustomerIdleTimeout,
        clearCustomerIdleTimeout, setupCustomerTimeout, clearCustomerTimeout, hlc]
      exact InvOn_freshConv h hlc rfl rfl

theorem invP_humanRequest (sid : String) (info : Option String) (st : ServerState)
    (h : Inv st) : Inv (handleHumanRequest sid info st).1 := by
  cases hlc : lookupM sid st.conversations with
  | none =>
      simp only [handleHumanRequest, hlc]
      exact h
  | some conv0 =>
      cases info with
      | some i =>
          simp only [handleHumanRequest, hlc]
          split
          · exact InvOn_setConv h hlc rfl rfl
          · exact InvOn_setConv h hlc rfl rfl
      | none =>
          simp only [handleHumanRequest, hlc]
          split
          · exact InvOn_setConv h hlc rfl rfl
          · exact InvOn_setConv h hlc rfl rfl

theorem invP_agentMessage (sid m : String) (st : ServerState) (h : Inv st) :
    Inv (handleAgentMessage sid m st).1 := by
  cases hlc : lookupM sid st.conversations with
  | none =>
      simp only [handleAgentMessage, hlc]
      exact h
  | some conv =>
      cases hcw : conv.customerWs with
      | none =>
          simp only [handleAgentMessage, hlc, hcw]
          exact h
      | some c =>
          simp only [handleAgentMessage, hlc, hcw]
          exact InvOn_setConv h hlc rfl rfl

theorem invP_endSession (sid : String) (st : ServerState) (h : Inv st) :
    Inv (handleEndSession sid st).1 := by
  cases hlc : lookupM sid st.conversations with
  | none =>
      simp only [handleEndSession, hlc]
      exact h
  | some conv =>
      cases hcv : conv.hasHuman with
      | true =>
          simp only [handleEndSession, hlc, hcv, if_true]
          exact invP_endChat sid "customer_ended" st h
      | false =>
          simp only [handleEndSession, hlc, hcv, Bool.false_eq_true, if_false]
          split
          · split
            · exact InvOn_delConv h hlc hcv
            · exact InvOn_delConv h hlc hcv
          · exact InvOn_delConv h hlc hcv


theorem invP_closeAgent (c : Nat) (st : ServerState) (h : Inv st) :
    Inv (closeAgentCleanup c st).1 := by
  cases hf1 : List.find? (fun p => p.2.ws == some c) st.humanAgents with
  | none =>
      simp only [closeAgentCleanup, hf1]
      exact h
  | some pa =>
      have hmem : (pa.1, pa.2) ∈ st.humanAgents := List.mem_of_find?_eq_some hf1
      have hlk : lookupM pa.1 st.humanAgents = some pa.2 :=
        lookupM_of_mem_nodup hmem h.1
      cases hba : lookupM pa.1 st.agentSessions with
      | none =>
          simp only [closeAgentCleanup, hf1, hba]
          exact InvOn_setAgentSameSession h hlk rfl
      | some sid2 =>
          cases hlc2 : lookupM sid2 st.conversations with
          | none =>
              simp only [closeAgentCleanup, hf1, hba, hlc2]
              exact InvOn_setAgentSameSession h hlk rfl
          | some conv2 =>
              cases hh2 : conv2.hasHuman with
              | false =>
                  simp only [closeAgentCleanup, hf1, hba, hlc2, hh2,
                    Bool.false_eq_true, if_false]
                  exact InvOn_setAgentSameSession h hlk rfl
              | true =>
                  simp only [closeAgentCleanup, hf1, hba, hlc2, hh2, if_true,
                    setupAgentReconnectTimeout]
                  split
                  · exact InvOn_setAgentSameSession (InvOn_armReconnect h hba) hlk rfl
                  · exact InvOn_setAgentSameSession h hlk rfl

theorem invP_closeCustomer (c : Nat) (st : ServerState) (h : Inv st) :
    Inv (closeCustomerCleanup c st).1 := by
  cases hf2 : List.find? (fun p => p.2.customerWs == some c) st.conversations with
  | none =>
      simp only [closeCustomerCleanup, hf2]
      exact h
  | some pc =>
      simp only [closeCustomerCleanup, hf2]
      split
      · split
        · exact invP_saveChatHistory _ _ _ h
        · exact invP_saveChatHistory _ _ _ h
      · split
        · exact h
        · exact h

theorem invP_socketClose (c : Nat) (st : ServerState) (h : Inv st) :
    Inv (handleSocketClose c st).1 := by
  exact invP_closeCustomer c _ (invP_closeAgent c _ h)


theorem invP_customerMessage (w : Nat) (sid m : String) (ai : AiResponse) (st : ServerState)
    (h : Inv st) : Inv (handleCustomerMessage w sid m ai st).1 := by
  cases hlc : lookupM sid st.conversations with
  | some conv0 =>
      have hB : InvOn (setM sid { conv0 with
          messages := conv0.messages ++ [{ role := "user", content := m }] } st.conversations)
          st.humanAgents st.agentSessions st.sessionAgentMap st.agentReconnectTimeouts :=
        InvOn_setConv h hlc rfl rfl
      simp only [handleCustomerMessage, hlc, Option.isNone_some, Bool.false_eq_true, if_false,
        setupCustomerTimeout, clearCustomerTimeout]
      split
      · -- hasHuman with a stored agent socket
        rename_i hcond
        split
        · exact hB
        · -- dead agent socket: possibly arm the reconnect-grace timer
          split
          · rename_i aid2 heq
            split
            · refine InvOn_armReconnect hB ?_
              have hht : conv0.hasHuman = true := hcond.1
              obtain ⟨a, haa, back⟩ := (h.2.1 sid conv0 hlc).1.mp hht
              have heq' : conv0.assignedAgent = some aid2 := heq
              rw [haa] at heq'
              injection heq' with he
              rw [← he]
              exact back.2.1
            · exact hB
          · exact hB
      · -- AI path
        cases ai with
        | handoff m2 r2 => exact hB
        | answer m2 => exact InvOn_setConv hB (lookupM_setM_self _ _ _) rfl rfl
        | failed m2 => exact InvOn_setConv hB (lookupM_setM_self _ _ _) rfl rfl
  | none =>
      have hA : InvOn (setM sid
          { customerWs := some w, messages := [], hasHuman := false, agentWs := none,
            assignedAgent := none, agentName := none, customerInfo := none }
          st.conversations)
          st.humanAgents st.agentSessions st.sessionAgentMap st.agentReconnectTimeouts :=
        InvOn_freshConv h hlc rfl rfl
      have hB : InvOn (setM sid
          { customerWs := some w, messages := [] ++ [{ role := "user", content := m }],
            hasHuman := false, agentWs := none, assignedAgent := none, agentName := none,
            customerInfo := none }
          (setM sid
            { customerWs := some w, messages := [], hasHuman := false, agentWs := none,
              assignedAgent := none, agentName := none, customerInfo := none }
            st.conversations))
          st.humanAgents st.agentSessions st.sessionAgentMap st.agentReconnectTimeouts :=
        InvOn_setConv hA (lookupM_setM_self _ _ _) rfl rfl
      simp only [handleCustomerMessage, hlc, Option.isNone_none, if_true,
        setupCustomerTimeout, clearCustomerTimeout, lookupM_setM_self,
        Bool.false_eq_true, false_and, if_false]
      cases ai with
      | handoff m2 r2 => exact hB
      | answer m2 => exact InvOn_setConv hB (lookupM_setM_self _ _ _) rfl rfl
      | failed m2 => exact InvOn_setConv hB (lookupM_setM_self _ _ _) rfl rfl


theorem Inv_initialState (conns : List Nat) : Inv (initialState conns) := by
  refine ⟨List.nodup_nil, ?_, ?_, ?_⟩
  · intro s conv hx
    simp [initialState, lookupM] at hx
  · intro a s hx
    simp [initialState, lookupM] at hx
  · intro a p hx
    simp [initialState, lookupM] at hx

/-- C1 (amended): the bidirectional consistency invariant — for every
session, `hasHuman = true` iff an assigned agent is set and that agent's
record and the agent-session maps point back at the session — is
preserved by every transition of the routing engine (customer message,
session restore, agent join incl. reconnection, human request, accept,
agent message, agent/customer end chat, socket close, all three timer
firings, time passing), PROVIDED that an accept-request is performed only
by an agent without a current assignment.  The unamended claim is false:
`handleAcceptRequest` never checks the accepting agent's status, and a
busy agent accepting a second session orphans its first one
(`c1_counterexample`). -/
theorem c1_invariant_preserved {st st' : ServerState} (h : Inv st) (hs : Step st st') :
    Inv st' := by
  cases hs with
  | customerMessage w sid m ai _ => exact invP_customerMessage w sid m ai st h
  | sessionRestore w sid _ => exact invP_sessionRestore w sid st h
  | agentJoin w aid uname _ => exact invP_agentJoin w aid uname st h
  | humanRequest sid info _ => exact invP_humanRequest sid info st h
  | accept sid aid _ hFree => exact invP_accept sid aid st h hFree
  | agentMessage sid m _ => exact invP_agentMessage sid m st h
  | endChat sid reason _ => exact invP_endChat sid reason st h
  | endSession sid _ => exact invP_endSession sid st h
  | socketClose c _ => exact invP_socketClose c st h
  | fireCustomer sid d _ hlook hd => exact invP_fireCustomer sid st h
  | fireIdle sid d _ hlook hd => exact invP_fireIdle sid st h
  | fireReconnect aid sid d _ hlook hd => exact invP_fireReconnect aid sid d st h hlook
  | timePasses t _ => exact h

/-- Witness for C1: the invariant holds at process start and is carried
through a concrete restore-session transition. -/
theorem c1_witness : Inv ((handleCustomerSessionRestore 100 "s1" (initialState [100])).1) :=
  c1_invariant_preserved (Inv_initialState [100])
    (Step.sessionRestore 100 "s1" (initialState [100]))

/-- Counterexample for C1 as stated: `exDoubleAccept` is reached from
`initialState` purely through the embedded handlers (restore s1, agent a1
joins, restore s2, s1 requests a human, a1 accepts s1, s2 requests a
human, the busy a1 accepts s2), yet the bidirectional invariant fails
there: session s1 still has `hasHuman = true` and `assignedAgent = "a1"`,
but agent a1's record and `agentSessions` now point at s2. -/
theorem c1_counterexample : ¬ Inv exDoubleAccept := by
  intro h
  have hlc : lookupM "s1" exDoubleAccept.conversations = some
      { customerWs := some 100, messages := [], hasHuman := true, agentWs := some 200,
        assignedAgent := some "a1", agentName := some "Alice", customerInfo := none } := by
    decide
  obtain ⟨a, haa, ⟨ad, had, hads⟩, hba, hbs⟩ := ((h.2.1 _ _ hlc).1).mp rfl
  injection haa with hae
  subst hae
  have had' : lookupM "a1" exDoubleAccept.humanAgents = some
      { ws := some 200, userName := "Alice", status := "busy", sessionId := some "s2" } := by
    decide
  rw [had'] at had
  injection had with hade
  rw [← hade] at hads
  injection hads with hs2
  exact absurd hs2 (by decide)


/-- C2: accepting an already-claimed session (`hasHuman = true`) is
rejected: the server state is completely unchanged (no session, agent,
queue or timer mutation), and the emitted sends are exactly one
`request_already_taken` message to the late accepter — no other party is
messaged.  The behaviour depends only on `hasHuman` already being `true`,
so it applies to every acceptor after the first regardless of arrival
order. -/
theorem c2_already_taken_rejected (sid aid : String) (st : ServerState)
    (conv : Conversation) (ad : AgentData) (c : Nat)
    (hlc : lookupM sid st.conversations = some conv)
    (hh : conv.hasHuman = true)
    (had : lookupM aid st.humanAgents = some ad)
    (hws : ad.ws = some c) (hopen : st.openConns.contains c = true) :
    (handleAcceptRequest sid aid st).1 = st ∧
    (handleAcceptRequest sid aid st).2 = [Send.requestAlreadyTaken c sid] := by
  simp only [handleAcceptRequest, hlc, had, hh, if_true]
  constructor
  · trivial
  · simp only [wsOpen, hws]
    rw [if_pos hopen]
    rfl

/-- Witness for C2: in the concrete reachable state `wStateTaken` (agent
"a" holds session "s"), a late accept by agent "b" changes nothing and
sends "already taken" to "b" alone. -/
theorem c2_witness :
    (handleAcceptRequest "s" "b" wStateTaken).1 = wStateTaken ∧
    (handleAcceptRequest "s" "b" wStateTaken).2 = [Send.requestAlreadyTaken 3 "s"] :=
  c2_already_taken_rejected "s" "b" wStateTaken
    { customerWs := some 1, messages := [{ role := "user", content := "hi" }],
      hasHuman := true, agentWs := some 2, assignedAgent := some "a",
      agentName := some "Ann", customerInfo := none }
    { ws := some 3, userName := "Bee", status := "online", sessionId := none }
    3 (by decide) (by decide) (by decide) (by decide) (by decide)


/-- C3: a successful accept — session exists with `hasHuman = false` and
the agent's record exists — performs, within the single handler step
(the embedded transition is atomic: no other transition observes an
intermediate state), the complete bundle: `hasHuman := true`, the
session→agent and agent→session links, agent status `busy` with the
session link, removal from the waiting queue, clearing of the customer
inactivity timer, `human_joined` to the customer when their socket is
open, `request_taken` to every other agent with a live socket, and
`customer_assigned` carrying the full transcript plus the canned replies
to the accepting agent when its socket is open. -/
theorem c3_accept_success_effects (sid aid : String) (st : ServerState)
    (conv : Conversation) (ad : AgentData)
    (hlc : lookupM sid st.conversations = some conv)
    (hh : conv.hasHuman = false)
    (had : lookupM aid st.humanAgents = some ad) :
    lookupM sid (handleAcceptRequest sid aid st).1.conversations = some
      { conv with
        hasHuman := true, agentWs := ad.ws, assignedAgent := some aid,
        agentName := some ad.userName } ∧
    lookupM aid (handleAcceptRequest sid aid st).1.agentSessions = some sid ∧
    lookupM sid (handleAcceptRequest sid aid st).1.sessionAgentMap = some aid ∧
    lookupM aid (handleAcceptRequest sid aid st).1.humanAgents = some
      { ad with status := "busy", sessionId := some sid } ∧
    (handleAcceptRequest sid aid st).1.waitingQueue = st.waitingQueue.erase sid ∧
    (st.waitingQueue.Nodup → sid ∉ (handleAcceptRequest sid aid st).1.waitingQueue) ∧
    lookupM sid (handleAcceptRequest sid aid st).1.customerTimeouts = none ∧
    (∀ cc, conv.customerWs = some cc → st.openConns.contains cc = true →
      Send.humanJoined cc ad.userName ∈ (handleAcceptRequest sid aid st).2) ∧
    (∀ p ∈ st.humanAgents, p.1 ≠ aid → wsOpen st.openConns p.2.ws = true →
      Send.requestTaken (p.2.ws.getD 0) sid ad.userName
        (st.waitingQueue.erase sid).length ∈ (handleAcceptRequest sid aid st).2) ∧
    (∀ ac, ad.ws = some ac → st.openConns.contains ac = true →
      Send.customerAssigned ac sid conv.messages true ∈ (handleAcceptRequest sid aid st).2) := by
  simp only [handleAcceptRequest, clearCustomerTimeout, hlc, had, hh, Bool.false_eq_true,
    if_false]
  refine ⟨lookupM_setM_self _ _ _, lookupM_setM_self _ _ _, lookupM_setM_self _ _ _,
    lookupM_setM_self _ _ _, trivial, ?_, lookupM_delM_self _ _, ?_, ?_, ?_⟩
  · intro hnd
    intro hmem
    exact absurd ((hnd.mem_erase_iff).mp hmem).1 (by simp)
  · intro cc hcw hopen
    refine List.mem_append.mpr (Or.inl (List.mem_append.mpr (Or.inr ?_)))
    simp only [wsOpen, hcw]
    rw [if_pos hopen]
    exact List.mem_singleton.mpr rfl
  · intro p hp hne hwo
    refine List.mem_append.mpr (Or.inl (List.mem_append.mpr (Or.inl ?_)))
    refine List.mem_map.mpr ⟨p, List.mem_filter.mpr ⟨(mem_setM_of_ne hne).mpr hp, ?_⟩, rfl⟩
    rw [Bool.and_eq_true]
    exact ⟨by simpa [bne_iff_ne] using hne, hwo⟩
  · intro ac haws hopen
    refine List.mem_append.mpr (Or.inr ?_)
    simp only [wsOpen, haws]
    rw [if_pos hopen]
    exact List.mem_singleton.mpr rfl

/-- Witness for C3: agent "a" accepts the queued session "s" of `wState`;
all ten effects are checked at this concrete input. -/
theorem c3_witness :
    lookupM "s" (handleAcceptRequest "s" "a" wState).1.conversations = some
      { customerWs := some 1, messages := [{ role := "user", content := "hi" }],
        hasHuman := true, agentWs := some 2, assignedAgent := some "a",
        agentName := some "Ann", customerInfo := none } ∧
    lookupM "a" (handleAcceptRequest "s" "a" wState).1.agentSessions = some "s" ∧
    Send.humanJoined 1 "Ann" ∈ (handleAcceptRequest "s" "a" wState).2 ∧
    Send.requestTaken 3 "s" "Ann" 0 ∈ (handleAcceptRequest "s" "a" wState).2 ∧
    Send.customerAssigned 2 "s" [{ role := "user", content := "hi" }] true ∈
      (handleAcceptRequest "s" "a" wState).2 := by
  have h := c3_accept_success_effects "s" "a" wState
    { customerWs := some 1, messages := [{ role := "user", content := "hi" }],
      hasHuman := false, agentWs := none, assignedAgent := none, agentName := none,
      customerInfo := none }
    { ws := some 2, userName := "Ann", status := "online", sessionId := none }
    (by decide) (by decide) (by decide)
  refine ⟨h.1, h.2.1, ?_, ?_, ?_⟩
  · exact h.2.2.2.2.2.2.2.1 1 (by decide) (by decide)
  · exact h.2.2.2.2.2.2.2.2.1
      ("b", { ws := some 3, userName := "Bee", status := "online", sessionId := none })
      (by decide) (by decide) (by decide)
  · exact h.2.2.2.2.2.2.2.2.2 2 (by decide) (by decide)


/-- C4: on a human-request event for an existing session: if zero agents
have a live connection, the customer is sent `no_agents_available` and
nothing else, and the queue is untouched (not enqueued); otherwise the
session is enqueued (appended only when absent), and every agent with a
live connection is sent `pending_request` carrying the session's 1-based
queue position and a preview of the last message.  An agent that is known
but disconnected is never in `listAvailable`, so it counts neither for
the availability check nor for the broadcast. -/
theorem c4_human_request_availability (sid : String) (info : Option String)
    (st : ServerState) (conv0 : Conversation)
    (hlc : lookupM sid st.conversations = some conv0) :
    (listAvailable st = [] →
      (handleHumanRequest sid info st).1.waitingQueue = st.waitingQueue ∧
      (handleHumanRequest sid info st).2 =
        (match conv0.customerWs with
         | some c => [Send.noAgentsAvailable c]
         | none => [])) ∧
    (listAvailable st ≠ [] →
      sid ∈ (handleHumanRequest sid info st).1.waitingQueue ∧
      (st.waitingQueue.contains sid = false →
        (handleHumanRequest sid info st).1.waitingQueue = st.waitingQueue ++ [sid]) ∧
      (st.waitingQueue.contains sid = true →
        (handleHumanRequest sid info st).1.waitingQueue = st.waitingQueue) ∧
      (∀ p ∈ st.humanAgents, wsOpen st.openConns p.2.ws = true →
        Send.pendingRequest (p.2.ws.getD 0) sid
          ((handleHumanRequest sid info st).1.waitingQueue.indexOf sid + 1)
          (handleHumanRequest sid info st).1.waitingQueue.length
          (lastContent conv0.messages "Customer wants to speak with human") ∈
          (handleHumanRequest sid info st).2)) ∧
    (∀ p ∈ st.humanAgents, wsOpen st.openConns p.2.ws = false → p ∉ listAvailable st) := by
  have hlast : ∀ p : String × AgentData, p ∈ st.humanAgents →
      wsOpen st.openConns p.2.ws = false → p ∉ listAvailable st := by
    intro p hp hwo hmem
    have hcond := (List.mem_filter.mp hmem).2
    rw [hwo] at hcond
    cases hcond
  cases info with
  | none =>
      simp only [handleHumanRequest, hlc]
      refine ⟨?_, ?_, hlast⟩
      · intro hempty
        have hf : st.humanAgents.filter (fun p => wsOpen st.openConns p.2.ws) = [] := hempty
        simp only [hf, List.length_nil, if_true]
        exact ⟨trivial, trivial⟩
      · intro hne
        have hf : st.humanAgents.filter (fun p => wsOpen st.openConns p.2.ws) ≠ [] := hne
        have hlne : ¬(st.humanAgents.filter (fun p => wsOpen st.openConns p.2.ws)).length = 0 := by
          simpa [List.length_eq_zero] using hf
        rw [if_neg hlne]
        refine ⟨?_, ?_, ?_, ?_⟩
        · by_cases hc : st.waitingQueue.contains sid = true
          · rw [if_pos hc]
            simpa using hc
          · rw [if_neg hc]
            exact List.mem_append.mpr (Or.inr (List.mem_singleton.mpr rfl))
        · intro hcf
          rw [if_neg (by rw [hcf]; exact Bool.false_ne_true)]
        · intro hct
          rw [if_pos hct]
        · intro p hp hwo
          refine List.mem_append.mpr (Or.inl ?_)
          exact List.mem_map.mpr ⟨p, List.mem_filter.mpr ⟨hp, hwo⟩, rfl⟩
  | some i =>
      simp only [handleHumanRequest, hlc]
      refine ⟨?_, ?_, hlast⟩
      · intro hempty
        have hf : st.humanAgents.filter (fun p => wsOpen st.openConns p.2.ws) = [] := hempty
        simp only [hf, List.length_nil, if_true]
        exact ⟨trivial, trivial⟩
      · intro hne
        have hf : st.humanAgents.filter (fun p => wsOpen st.openConns p.2.ws) ≠ [] := hne
        have hlne : ¬(st.humanAgents.filter (fun p => wsOpen st.openConns p.2.ws)).length = 0 := by
          simpa [List.length_eq_zero] using hf
        rw [if_neg hlne]
        refine ⟨?_, ?_, ?_, ?_⟩
        · by_cases hc : st.waitingQueue.contains sid = true
          · rw [if_pos hc]
            simpa using hc
          · rw [if_neg hc]
            exact List.mem_append.mpr (Or.inr (List.mem_singleton.mpr rfl))
        · intro hcf
          rw [if_neg (by rw [hcf]; exact Bool.false_ne_true)]
        · intro hct
          rw [if_pos hct]
        · intro p hp hwo
          refine List.mem_append.mpr (Or.inl ?_)
          exact List.mem_map.mpr ⟨p, List.mem_filter.mpr ⟨hp, hwo⟩, rfl⟩

/-- Witness for C4: with only the disconnected agent "c" known
(`wStateNoAgents`), session "s" is told no agents are available and stays
out of the queue; in `wState` (agents "a" and "b" live) the request leaves
the already-queued "s" at position 1 and notifies agent "a". -/
theorem c4_witness :
    (handleHumanRequest "s" none wStateNoAgents).1.waitingQueue = [] ∧
    (handleHumanRequest "s" none wStateNoAgents).2 = [Send.noAgentsAvailable 1] ∧
    Send.pendingRequest 2 "s" 1 1 "hi" ∈ (handleHumanRequest "s" none wState).2 := by
  have h1 := (c4_human_request_availability "s" none wStateNoAgents
    { customerWs := some 1, messages := [{ role := "user", content := "hi" }],
      hasHuman := false, agentWs := none, assignedAgent := none, agentName := none,
      customerInfo := none } (by decide)).1 (by decide)
  have h2 := ((c4_human_request_availability "s" none wState
    { customerWs := some 1, messages := [{ role := "user", content := "hi" }],
      hasHuman := false, agentWs := none, assignedAgent := none, agentName := none,
      customerInfo := none } (by decide)).2.1 (by decide)).2.2.2
    ("a", { ws := some 2, userName := "Ann", status := "online", sessionId := none })
    (by decide) (by decide)
  exact ⟨h1.1, h1.2, h2⟩


theorem contains_false_of_not_mem {α : Type} [BEq α] [LawfulBEq α] {l : List α} {a : α}
    (h : a ∉ l) : l.contains a = false := by
  cases hc : l.contains a
  · rfl
  · exact absurd (List.mem_of_elem_eq_true hc) h

theorem erase_append_of_not_mem {l l2 : List String} {a : String} (h : a ∉ l) :
    (l ++ l2).erase a = l ++ l2.erase a := by
  induction l with
  | nil => simp
  | cons x xs ih =>
      have hx : ¬(x == a) = true := by
        simp only [beq_iff_eq]
        intro he
        exact h (by rw [he]; exact List.mem_cons_self _ _)
      simp only [List.cons_append, List.erase_cons]
      rw [if_neg hx]
      exact congrArg (List.cons x) (ih (fun hm => h (List.mem_cons_of_mem _ hm)))

/-- C6: `handleHumanRequest`'s enqueue appends the session only when it is
absent (so a session occurs at most once), the position it reports to the
customer is the session's 1-based queue index, and the queue is strict
FIFO with no reordering: requesting for A then B appends in that order, a
second request for A leaves the queue unchanged, A's index is strictly
below B's, and a subsequent accept of A removes exactly A, leaving B. -/
theorem c6_queue_fifo (A B : String) (st : ServerState) (convA convB : Conversation)
    (hAB : A ≠ B)
    (hlcA : lookupM A st.conversations = some convA)
    (hlcB : lookupM B st.conversations = some convB)
    (hlive : listAvailable st ≠ [])
    (hqA : A ∉ st.waitingQueue) (hqB : B ∉ st.waitingQueue) :
    (handleHumanRequest A none st).1.waitingQueue = st.waitingQueue ++ [A] ∧
    (handleHumanRequest A none (handleHumanRequest A none st).1).1.waitingQueue =
      st.waitingQueue ++ [A] ∧
    (handleHumanRequest B none (handleHumanRequest A none st).1).1.waitingQueue =
      st.waitingQueue ++ [A] ++ [B] ∧
    (∀ cc, convA.customerWs = some cc → st.openConns.contains cc = true →
      Send.waitingForHuman cc
        ((handleHumanRequest A none st).1.waitingQueue.indexOf A + 1) ∈
        (handleHumanRequest A none st).2) ∧
    (st.waitingQueue ++ [A] ++ [B]).indexOf A < (st.waitingQueue ++ [A] ++ [B]).indexOf B ∧
    (∀ aid convA2 ad,
      lookupM A (handleHumanRequest B none (handleHumanRequest A none st).1).1.conversations
        = some convA2 →
      convA2.hasHuman = false →
      lookupM aid (handleHumanRequest B none (handleHumanRequest A none st).1).1.humanAgents
        = some ad →
      (handleAcceptRequest A aid
        (handleHumanRequest B none (handleHumanRequest A none st).1).1).1.waitingQueue =
        st.waitingQueue ++ [B]) := by
  have hflt : st.humanAgents.filter (fun p => wsOpen st.openConns p.2.ws) ≠ [] := hlive
  have hlne : ¬(st.humanAgents.filter (fun p => wsOpen st.openConns p.2.ws)).length = 0 := by
    simpa [List.length_eq_zero] using hflt
  have hcA : st.waitingQueue.contains A = false := contains_false_of_not_mem hqA
  have hmemA1 : A ∈ st.waitingQueue ++ [A] :=
    List.mem_append.mpr (Or.inr (List.mem_singleton.mpr rfl))
  have hcA1 : (st.waitingQueue ++ [A]).contains A = true := List.elem_eq_true_of_mem hmemA1
  have hcB1 : (st.waitingQueue ++ [A]).contains B = false := by
    refine contains_false_of_not_mem ?_
    intro hm
    rcases List.mem_append.mp hm with hm1 | hm1
    · exact hqB hm1
    · exact hAB (List.mem_singleton.mp hm1).symm
  have hq1 : (handleHumanRequest A none st).1.waitingQueue = st.waitingQueue ++ [A] := by
    simp only [handleHumanRequest, hlcA]
    rw [if_neg hlne, if_neg (by rw [hcA]; exact Bool.false_ne_true)]
  have hconv1 : (handleHumanRequest A none st).1.conversations
      = setM A convA st.conversations := by
    simp only [handleHumanRequest, hlcA]
    rw [if_neg hlne]
  have hagents1 : (handleHumanRequest A none st).1.humanAgents = st.humanAgents := by
    simp only [handleHumanRequest, hlcA]
    rw [if_neg hlne]
  have hopen1 : (handleHumanRequest A none st).1.openConns = st.openConns := by
    simp only [handleHumanRequest, hlcA]
    rw [if_neg hlne]
  have key2 : ∀ S1 : ServerState,
      S1.conversations = setM A convA st.conversations →
      S1.humanAgents = st.humanAgents →
      S1.openConns = st.openConns →
      S1.waitingQueue = st.waitingQueue ++ [A] →
      (handleHumanRequest A none S1).1.waitingQueue = st.waitingQueue ++ [A] ∧
      (handleHumanRequest B none S1).1.waitingQueue = st.waitingQueue ++ [A] ++ [B] ∧
      (handleHumanRequest B none S1).1.conversations = setM B convB S1.conversations ∧
      (handleHumanRequest B none S1).1.humanAgents = st.humanAgents := by
    intro S1 hc ha ho hq
    have hlcA1 : lookupM A S1.conversations = some convA := by
      rw [hc]
      exact lookupM_setM_self _ _ _
    have hlcB1 : lookupM B S1.conversations = some convB := by
      rw [hc, lookupM_setM_ne hAB.symm]
      exact hlcB
    have hlne1 : ¬(S1.humanAgents.filter (fun p => wsOpen S1.openConns p.2.ws)).length = 0 := by
      rw [ha, ho]
      exact hlne
    refine ⟨?_, ?_, ?_, ?_⟩
    · simp only [handleHumanRequest, hlcA1]
      rw [if_neg hlne1, if_pos (by rw [hq]; exact hcA1)]
      exact hq
    · simp only [handleHumanRequest, hlcB1]
      rw [if_neg hlne1, if_neg (by rw [hq, hcB1]; exact Bool.false_ne_true), hq]
    · simp only [handleHumanRequest, hlcB1]
      rw [if_neg hlne1]
    · simp only [handleHumanRequest, hlcB1]
      rw [if_neg hlne1, ha]
  have key3 : ∀ S2 : ServerState, S2.waitingQueue = st.waitingQueue ++ [A] ++ [B] →
      ∀ aid convA2 ad, lookupM A S2.conversations = some convA2 →
      convA2.hasHuman = false → lookupM aid S2.humanAgents = some ad →
      (handleAcceptRequest A aid S2).1.waitingQueue = st.waitingQueue ++ [B] := by
    intro S2 hq aid convA2 ad hlc2 hh2 had2
    simp only [handleAcceptRequest, clearCustomerTimeout, hlc2, had2, hh2,
      Bool.false_eq_true, if_false]
    rw [hq, List.append_assoc, erase_append_of_not_mem hqA]
    simp [List.erase_cons]
  have k2 := key2 (handleHumanRequest A none st).1 hconv1 hagents1 hopen1 hq1
  refine ⟨hq1, k2.1, k2.2.1, ?_, ?_, ?_⟩
  · intro cc hcw hcopen
    rw [hq1]
    simp only [handleHumanRequest, hlcA]
    rw [if_neg hlne]
    refine List.mem_append.mpr (Or.inr ?_)
    simp only [wsOpen, hcw]
    rw [if_pos hcopen]
    rw [if_neg (by rw [hcA]; exact Bool.false_ne_true)]
    exact List.mem_singleton.mpr rfl
  · rw [List.append_assoc]
    rw [List.indexOf_append_of_not_mem hqA, List.indexOf_append_of_not_mem hqB]
    simp only [List.singleton_append]
    have h1 : List.indexOf A [A, B] = 0 := List.indexOf_cons_self _ _
    have h2 : List.indexOf B [A, B] = 1 := by
      rw [List.indexOf_cons_ne _ hAB]
      rw [List.indexOf_cons_self]
    rw [h1, h2]
    exact Nat.add_lt_add_left (by decide) _
  · intro aid convA2 ad hlc2 hh2 had2
    exact key3 _ k2.2.1 aid convA2 ad hlc2 hh2 had2

theorem c6_witness :
    ("sA" : String) ≠ "sB" ∧
    lookupM "sA" c6St.conversations = some c6ConvA ∧
    lookupM "sB" c6St.conversations = some c6ConvB ∧
    listAvailable c6St ≠ [] ∧
    ("sA" : String) ∉ c6St.waitingQueue ∧ ("sB" : String) ∉ c6St.waitingQueue ∧
    (handleHumanRequest "sB" none (handleHumanRequest "sA" none c6St).1).1.waitingQueue =
      c6St.waitingQueue ++ ["sA"] ++ ["sB"] :=
  ⟨by decide, by decide, by decide, by decide, by decide, by decide,
    (c6_queue_fifo "sA" "sB" c6St c6ConvA c6ConvB (by decide) (by decide) (by decide)
      (by decide) (by decide) (by decide)).2.2.1⟩

/-- C7: if the reconnecting agent has a previous assignment
(`agentSessions` names a session that still exists, is human-handled and
names this agent), `handleAgentReconnection` reports a reconnection,
cancels the grace timer, restores the agent record to busy on the same
session with the new socket, points the conversation's `agentWs` at the
new socket, re-pushes the last-10 transcript tail to the agent, and (if
the customer socket is live) notifies the customer; once the assignment
is gone — the grace timer expired, which drops the agent-session links
and frees the agent record to online — a rejoin finds no valid
assignment: it reports no reconnection, and `handleAgentJoin` registers
the agent online with no session link on the new socket, announcing
status "online" rather than "reconnected". -/
theorem c7_agent_reconnection (w : Nat) (aid uname prev : String) (conv : Conversation)
    (st : ServerState)
    (hsess : lookupM aid st.agentSessions = some prev)
    (hconv : lookupM prev st.conversations = some conv)
    (hh : conv.hasHuman = true) (haa : conv.assignedAgent = some aid) :
    (handleAgentReconnection w aid uname st).2.2 = true ∧
    lookupM aid (handleAgentReconnection w aid uname st).1.agentReconnectTimeouts = none ∧
    lookupM aid (handleAgentReconnection w aid uname st).1.humanAgents =
      some { ws := some w, userName := uname, status := "busy", sessionId := some prev } ∧
    lookupM prev (handleAgentReconnection w aid uname st).1.conversations =
      some { conv with agentWs := some w } ∧
    Send.connectionRestored w prev (takeLast 10 conv.messages) ∈
      (handleAgentReconnection w aid uname st).2.1 ∧
    (∀ cc, conv.customerWs = some cc → wsOpen st.openConns (some cc) = true →
      Send.agentReconnected cc uname ∈ (handleAgentReconnection w aid uname st).2.1) ∧
    (∀ ad, lookupM aid st.humanAgents = some ad →
      lookupM aid (fireAgentReconnectTimeout aid prev st).1.agentSessions = none ∧
      lookupM aid (fireAgentReconnectTimeout aid prev st).1.humanAgents =
        some { ws := ad.ws, userName := ad.userName, status := "online", sessionId := none } ∧
      (handleAgentReconnection w aid uname (fireAgentReconnectTimeout aid prev st).1).2.2
        = false ∧
      lookupM aid
          (handleAgentJoin w aid uname (fireAgentReconnectTimeout aid prev st).1).1.humanAgents
        = some { ws := some w, userName := ad.userName, status := "online",
                 sessionId := none } ∧
      (∃ n, Send.agentStatusMsg w n "online" ∈
        (handleAgentJoin w aid uname (fireAgentReconnectTimeout aid prev st).1).2)) := by
  refine ⟨?_, ?_, ?_, ?_, ?_, ?_, ?_⟩
  · simp [handleAgentReconnection, hsess, hconv, hh, haa]
  · simp [handleAgentReconnection, hsess, hconv, hh, haa, lookupM_delM_self]
  · simp [handleAgentReconnection, hsess, hconv, hh, haa, lookupM_setM_self]
  · simp [handleAgentReconnection, hsess, hconv, hh, haa, lookupM_setM_self]
  · simp [handleAgentReconnection, hsess, hconv, hh, haa]
  · intro cc hcw hop
    simp [handleAgentReconnection, hsess, hconv, hh, haa, hcw, hop]
  · intro ad hla
    have hfa : lookupM aid (fireAgentReconnectTimeout aid prev st).1.agentSessions = none :=
      lookupM_delM_self _ _
    have hfh : lookupM aid (fireAgentReconnectTimeout aid prev st).1.humanAgents =
        some { ws := ad.ws, userName := ad.userName, status := "online",
               sessionId := none } := by
      simp only [fireAgentReconnectTimeout, hconv]
      rw [if_pos haa]
      simp only [handleEndChat, hconv, saveChatHistory, haa, hla]
      exact lookupM_setM_self _ _ _
    have hrec2 :
        (handleAgentReconnection w aid uname (fireAgentReconnectTimeout aid prev st).1).2.2
          = false := by
      simp [handleAgentReconnection, hfa]
    have hjoin : lookupM aid
        (handleAgentJoin w aid uname (fireAgentReconnectTimeout aid prev st).1).1.humanAgents
        = some { ws := some w, userName := ad.userName, status := "online",
                 sessionId := none } := by
      simp only [handleAgentJoin, handleAgentReconnection, hfa, hfh, Bool.false_eq_true,
        if_false]
      exact lookupM_setM_self _ _ _
    have hmsg : Send.agentStatusMsg w
        (handleAgentJoin w aid uname
          (fireAgentReconnectTimeout aid prev st).1).1.waitingQueue.length "online" ∈
        (handleAgentJoin w aid uname (fireAgentReconnectTimeout aid prev st).1).2 := by
      simp only [handleAgentJoin, handleAgentReconnection, hfa, hfh, Bool.false_eq_true,
        if_false, List.nil_append]
      exact List.mem_append.mpr (Or.inl (List.mem_append.mpr
        (Or.inl (List.mem_singleton.mpr rfl))))
    exact ⟨hfa, hfh, hrec2, hjoin, ⟨_, hmsg⟩⟩

theorem c7_witness :
    lookupM "ag" c7St.agentSessions = some "p" ∧
    lookupM "p" c7St.conversations = some c7Conv ∧
    c7Conv.hasHuman = true ∧ c7Conv.assignedAgent = some "ag" ∧
    (handleAgentReconnection 6 "ag" "Ann" c7St).2.2 = true ∧
    lookupM "ag" (handleAgentReconnection 6 "ag" "Ann" c7St).1.agentReconnectTimeouts = none ∧
    (handleAgentReconnection 6 "ag" "Ann" (fireAgentReconnectTimeout "ag" "p" c7St).1).2.2
      = false ∧
    lookupM "ag"
        (handleAgentJoin 6 "ag" "Ann" (fireAgentReconnectTimeout "ag" "p" c7St).1).1.humanAgents
      = some { ws := some 6, userName := "Ann", status := "online", sessionId := none } :=
  ⟨by decide, by decide, by decide, by decide,
    (c7_agent_reconnection 6 "ag" "Ann" "p" c7Conv c7St (by decide) (by decide) (by decide)
      (by decide)).1,
    (c7_agent_reconnection 6 "ag" "Ann" "p" c7Conv c7St (by decide) (by decide) (by decide)
      (by decide)).2.1,
    ((c7_agent_reconnection 6 "ag" "Ann" "p" c7Conv c7St (by decide) (by decide) (by decide)
      (by decide)).2.2.2.2.2.2
      { ws := none, userName := "Ann", status := "busy", sessionId := some "p" }
      (by decide)).2.2.1,
    ((c7_agent_reconnection 6 "ag" "Ann" "p" c7Conv c7St (by decide) (by decide) (by decide)
      (by decide)).2.2.2.2.2.2
      { ws := none, userName := "Ann", status := "busy", sessionId := some "p" }
      (by decide)).2.2.2.1⟩

theorem QInvOn_setSame {q : List String} {convs : List (String × Conversation)}
    {sid : String} {conv conv' : Conversation}
    (h : QInvOn q convs) (hl : lookupM sid convs = some conv)
    (hh : conv'.hasHuman = conv.hasHuman) : QInvOn q (setM sid conv' convs) := by
  refine ⟨h.1, ?_⟩
  intro s hs cv hcv
  by_cases he : s = sid
  · subst he
    rw [lookupM_setM_self] at hcv
    injection hcv with hcv
    rw [← hcv, hh]
    exact h.2 s hs conv hl
  · rw [lookupM_setM_ne he _ _] at hcv
    exact h.2 s hs cv hcv

theorem QInvOn_setFalse {q : List String} {convs : List (String × Conversation)}
    {sid : String} {conv' : Conversation}
    (h : QInvOn q convs) (hh : conv'.hasHuman = false) :
    QInvOn q (setM sid conv' convs) := by
  refine ⟨h.1, ?_⟩
  intro s hs cv hcv
  by_cases he : s = sid
  · subst he
    rw [lookupM_setM_self] at hcv
    injection hcv with hcv
    rw [← hcv]
    exact hh
  · rw [lookupM_setM_ne he _ _] at hcv
    exact h.2 s hs cv hcv

theorem QInvOn_del {q : List String} {convs : List (String × Conversation)} {sid : String}
    (h : QInvOn q convs) : QInvOn q (delM sid convs) := by
  refine ⟨h.1, ?_⟩
  intro s hs cv hcv
  exact h.2 s hs cv (lookupM_delM_some hcv).1

theorem QInvOn_erase {q : List String} {convs : List (String × Conversation)} {sid : String}
    (h : QInvOn q convs) : QInvOn (q.erase sid) convs := by
  refine ⟨h.1.erase _, ?_⟩
  intro s hs cv hcv
  exact h.2 s (List.mem_of_mem_erase hs) cv hcv

theorem QInvOn_append {q : List String} {convs : List (String × Conversation)}
    {sid : String} {conv : Conversation}
    (h : QInvOn q convs) (hnm : sid ∉ q)
    (hl : lookupM sid convs = some conv) (hh : conv.hasHuman = false) :
    QInvOn (q ++ [sid]) convs := by
  refine ⟨?_, ?_⟩
  · refine List.Nodup.append h.1 (List.nodup_singleton _) ?_
    intro a ha ha2
    rw [List.mem_singleton] at ha2
    subst ha2
    exact hnm ha
  · intro s hs cv hcv
    rcases List.mem_append.mp hs with hs1 | hs1
    · exact h.2 s hs1 cv hcv
    · rw [List.mem_singleton] at hs1
      subst hs1
      rw [hl] at hcv
      injection hcv with hcv
      rw [← hcv]
      exact hh

theorem QInvOn_eraseSet {q : List String} {convs : List (String × Conversation)}
    {sid : String} {conv' : Conversation}
    (h : QInvOn q convs) : QInvOn (q.erase sid) (setM sid conv' convs) := by
  refine ⟨h.1.erase _, ?_⟩
  intro s hs cv hcv
  have hne : s ≠ sid := ((List.Nodup.mem_erase_iff h.1).mp hs).1
  rw [lookupM_setM_ne hne _ _] at hcv
  exact h.2 s (List.mem_of_mem_erase hs) cv hcv

theorem qinvP_customerMessage (w : Nat) (sid m : String) (ai : AiResponse) (st : ServerState)
    (h : QInv st) : QInv (handleCustomerMessage w sid m ai st).1 := by
  cases hlc : lookupM sid st.conversations with
  | some conv0 =>
      have hB : QInvOn st.waitingQueue (setM sid { conv0 with
          messages := conv0.messages ++ [{ role := "user", content := m }] } st.conversations) :=
        QInvOn_setSame h hlc rfl
      simp only [handleCustomerMessage, hlc, Option.isNone_some, Bool.false_eq_true, if_false,
        setupCustomerTimeout, clearCustomerTimeout]
      split
      · split
        · exact hB
        · split
          · split
            · exact hB
            · exact hB
          · exact hB
      · cases ai with
        | handoff m2 r2 => exact hB
        | answer m2 => exact QInvOn_setSame hB (lookupM_setM_self _ _ _) rfl
        | failed m2 => exact QInvOn_setSame hB (lookupM_setM_self _ _ _) rfl
  | none =>
      have hA : QInvOn st.waitingQueue (setM sid
          { customerWs := some w, messages := [], hasHuman := false, agentWs := none,
            assignedAgent := none, agentName := none, customerInfo := none }
          st.conversations) :=
        QInvOn_setFalse h rfl
      have hB : QInvOn st.waitingQueue (setM sid
          { customerWs := some w, messages := [] ++ [{ role := "user", content := m }],
            hasHuman := false, agentWs := none, assignedAgent := none, agentName := none,
            customerInfo := none }
          (setM sid
            { customerWs := some w, messages := [], hasHuman := false, agentWs := none,
              assignedAgent := none, agentName := none, customerInfo := none }
            st.conversations)) :=
        QInvOn_setFalse hA rfl
      simp only [handleCustomerMessage, hlc, Option.isNone_none, if_true,
        setupCustomerTimeout, clearCustomerTimeout, lookupM_setM_self,
        Bool.false_eq_true, false_and, if_false]
      cases ai with
      | handoff m2 r2 => exact hB
      | answer m2 => exact QInvOn_setFalse hB rfl
      | failed m2 => exact QInvOn_setFalse hB rfl

theorem qinvP_sessionRestore (w : Nat) (sid : String) (st : ServerState)
    (h : QInv st) : QInv (handleCustomerSessionRestore w sid st).1 := by
  cases hlc : lookupM sid st.conversations with
  | some conv =>
      simp only [handleCustomerSessionRestore, hlc, setupCustomerIdleTimeout,
        clearCustomerIdleTimeout]
      exact QInvOn_setSame h hlc rfl
  | none =>
      simp only [handleCustomerSessionRestore, hlc, setupCustomerIdleTimeout,
        clearCustomerIdleTimeout, setupCustomerTimeout, clearCustomerTimeout]
      exact QInvOn_setFalse h rfl

theorem qinvP_reconnection (w : Nat) (aid uname : String) (st : ServerState)
    (h : QInv st) : QInv (handleAgentReconnection w aid uname st).1 := by
  cases hba : lookupM aid st.agentSessions with
  | none =>
      simp only [handleAgentReconnection, hba]
      exact h
  | some prev =>
      cases hlc : lookupM prev st.conversations with
      | none =>
          simp only [handleAgentReconnection, hba, hlc]
          exact h
      | some conv =>
          simp only [handleAgentReconnection, hba, hlc]
          split
          · exact QInvOn_setSame h hlc rfl
          · exact h

theorem qinvP_agentJoin (w : Nat) (aid uname : String) (st : ServerState)
    (h : QInv st) : QInv (handleAgentJoin w aid uname st).1 := by
  have hR := qinvP_reconnection w aid uname st h
  simp only [handleAgentJoin]
  split
  · exact hR
  · split
    · exact hR
    · exact hR

theorem qinvP_agentMessage (sid m : String) (st : ServerState)
    (h : QInv st) : QInv (handleAgentMessage sid m st).1 := by
  cases hlc : lookupM sid st.conversations with
  | none =>
      simp only [handleAgentMessage, hlc]
      exact h
  | some conv =>
      cases hcw : conv.customerWs with
      | none =>
          simp only [handleAgentMessage, hlc, hcw]
          exact h
      | some c =>
          simp only [handleAgentMessage, hlc, hcw]
          exact QInvOn_setSame h hlc rfl

theorem qinvP_endChat (sid reason : String) (st : ServerState)
    (h : QInv st) : QInv (handleEndChat sid reason st).1 := by
  cases hlc : lookupM sid st.conversations with
  | none =>
      simp only [handleEndChat, hlc]
      exact h
  | some conv =>
      simp only [handleEndChat, hlc, saveChatHistory]
      split
      · split
        · exact QInvOn_setFalse h rfl
        · exact QInvOn_setFalse h rfl
      · exact QInvOn_setFalse h rfl

theorem qinvP_humanRequest (sid : String) (info : Option String) (st : ServerState)
    (h : QInv st)
    (hg : ∀ conv, lookupM sid st.conversations = some conv → conv.hasHuman = false) :
    QInv (handleHumanRequest sid info st).1 := by
  cases hlc : lookupM sid st.conversations with
  | none =>
      simp only [handleHumanRequest, hlc]
      exact h
  | some conv0 =>
      have hh0 : conv0.hasHuman = false := hg conv0 hlc
      cases info with
      | none =>
          have hA : QInvOn st.waitingQueue (setM sid conv0 st.conversations) :=
            QInvOn_setSame h hlc rfl
          simp only [handleHumanRequest, hlc]
          split
          · exact hA
          · split
            · exact hA
            · rename_i hnc
              refine QInvOn_append hA ?_ (lookupM_setM_self _ _ _) hh0
              intro hm
              exact hnc (List.elem_eq_true_of_mem hm)
      | some i =>
          have hA : QInvOn st.waitingQueue
              (setM sid { conv0 with customerInfo := some i } st.conversations) :=
            QInvOn_setSame h hlc rfl
          simp only [handleHumanRequest, hlc]
          split
          · exact hA
          · split
            · exact hA
            · rename_i hnc
              refine QInvOn_append hA ?_ (lookupM_setM_self _ _ _) hh0
              intro hm
              exact hnc (List.elem_eq_true_of_mem hm)

theorem qinvP_accept (sid aid : String) (st : ServerState)
    (h : QInv st) : QInv (handleAcceptRequest sid aid st).1 := by
  cases hlc : lookupM sid st.conversations with
  | none =>
      simp only [handleAcceptRequest, hlc]
      exact h
  | some conv =>
      cases hla : lookupM aid st.humanAgents with
      | none =>
          simp only [handleAcceptRequest, hlc, hla]
          exact h
      | some agentData =>
          simp only [handleAcceptRequest, hlc, hla, clearCustomerTimeout]
          split
          · exact h
          · exact QInvOn_eraseSet h

theorem qinvP_endSession (sid : String) (st : ServerState)
    (h : QInv st) : QInv (handleEndSession sid st).1 := by
  cases hlc : lookupM sid st.conversations with
  | none =>
      simp only [handleEndSession, hlc]
      exact h
  | some conv =>
      simp only [handleEndSession, hlc]
      split
      · exact qinvP_endChat sid "customer_ended" st h
      · split
        · split
          · exact QInvOn_erase (QInvOn_del h)
          · exact QInvOn_del h
        · exact QInvOn_del h

theorem qinvP_fireCustomer (sid : String) (st : ServerState)
    (h : QInv st) : QInv (fireCustomerTimeout sid st).1 := by
  cases hlc : lookupM sid st.conversations with
  | none =>
      simp only [fireCustomerTimeout, hlc]
      exact h
  | some conv =>
      simp only [fireCustomerTimeout, hlc]
      split
      · exact h
      · split
        · exact QInvOn_erase h
        · exact h

theorem qinvP_fireIdle (sid : String) (st : ServerState)
    (h : QInv st) : QInv (fireCustomerIdleTimeout sid st).1 := by
  cases hlc : lookupM sid st.conversations with
  | none =>
      simp only [fireCustomerIdleTimeout, hlc]
      exact h
  | some conv =>
      simp only [fireCustomerIdleTimeout, hlc]
      split
      · exact qinvP_endChat sid "customer_idle" st h
      · exact QInvOn_erase (QInvOn_del h)

theorem qinvP_fireReconnect (aid sid : String) (st : ServerState)
    (h : QInv st) : QInv (fireAgentReconnectTimeout aid sid st).1 := by
  cases hlc : lookupM sid st.conversations with
  | none =>
      simp only [fireAgentReconnectTimeout, hlc]
      exact h
  | some conv =>
      simp only [fireAgentReconnectTimeout, hlc]
      split
      · exact qinvP_endChat sid "agent_timeout" st h
      · exact h

theorem qinvP_closeAgent (c : Nat) (st : ServerState)
    (h : QInv st) : QInv (closeAgentCleanup c st).1 := by
  cases hf : st.humanAgents.find? (fun p => p.2.ws == some c) with
  | none =>
      simp only [closeAgentCleanup, hf]
      exact h
  | some pa =>
      simp only [closeAgentCleanup, hf]
      repeat' split
      all_goals exact h

theorem qinvP_closeCustomer (c : Nat) (st : ServerState)
    (h : QInv st) : QInv (closeCustomerCleanup c st).1 := by
  cases hf : st.conversations.find? (fun p => p.2.customerWs == some c) with
  | none =>
      simp only [closeCustomerCleanup, hf]
      exact h
  | some pc =>
      simp only [closeCustomerCleanup, hf, saveChatHistory]
      repeat' split
      all_goals first
        | exact QInvOn_erase h
        | exact h

theorem qinvP_socketClose (c : Nat) (st : ServerState)
    (h : QInv st) : QInv (handleSocketClose c st).1 := by
  have h0 : QInv { st with openConns := st.openConns.erase c } := h
  have h1 := qinvP_closeAgent c { st with openConns := st.openConns.erase c } h0
  exact qinvP_closeCustomer c _ h1

theorem qinvP_tick (t : Nat) (st : ServerState) (h : QInv st) : QInv (tick t st) := h

theorem c5_counterexample :
    "s1" ∈ exRequeued.waitingQueue ∧
    (lookupM "s1" exRequeued.conversations).map (fun conv => conv.hasHuman) = some true := by
  decide

/-- C5 (amended): the queue invariant — the waiting queue holds distinct
session identities and every queued session that exists in the registry
has `hasHuman = false` — is preserved by every transition of the routing
engine, PROVIDED that a human-request is only submitted for a session
that is not already human-handled.  The unamended claim is false:
`handleHumanRequest` never checks `hasHuman`, and a repeated request from
a human-handled session enqueues it (`c5_counterexample`). -/
theorem c5_queue_only_unhandled (st : ServerState) (h : QInv st) :
    (∀ w sid m ai, QInv (handleCustomerMessage w sid m ai st).1) ∧
    (∀ w sid, QInv (handleCustomerSessionRestore w sid st).1) ∧
    (∀ w aid uname, QInv (handleAgentJoin w aid uname st).1) ∧
    (∀ sid info, (∀ conv, lookupM sid st.conversations = some conv → conv.hasHuman = false) →
      QInv (handleHumanRequest sid info st).1) ∧
    (∀ sid aid, QInv (handleAcceptRequest sid aid st).1) ∧
    (∀ sid m, QInv (handleAgentMessage sid m st).1) ∧
    (∀ sid reason, QInv (handleEndChat sid reason st).1) ∧
    (∀ sid, QInv (handleEndSession sid st).1) ∧
    (∀ c, QInv (handleSocketClose c st).1) ∧
    (∀ sid, QInv (fireCustomerTimeout sid st).1) ∧
    (∀ sid, QInv (fireCustomerIdleTimeout sid st).1) ∧
    (∀ aid sid, QInv (fireAgentReconnectTimeout aid sid st).1) ∧
    (∀ t, QInv (tick t st)) :=
  ⟨fun w sid m ai => qinvP_customerMessage w sid m ai st h,
   fun w sid => qinvP_sessionRestore w sid st h,
   fun w aid uname => qinvP_agentJoin w aid uname st h,
   fun sid info hg => qinvP_humanRequest sid info st h hg,
   fun sid aid => qinvP_accept sid aid st h,
   fun sid m => qinvP_agentMessage sid m st h,
   fun sid reason => qinvP_endChat sid reason st h,
   fun sid => qinvP_endSession sid st h,
   fun c => qinvP_socketClose c st h,
   fun sid => qinvP_fireCustomer sid st h,
   fun sid => qinvP_fireIdle sid st h,
   fun aid sid => qinvP_fireReconnect aid sid st h,
   fun t => qinvP_tick t st h⟩

theorem c5_witness :
    QInv wState ∧ QInv (handleAcceptRequest "s" "a" wState).1 := by
  have hq : QInv wState := by
    refine ⟨by decide, ?_⟩
    intro s hs conv hc
    have hs' : s = "s" := by
      simpa [wState] using hs
    subst hs'
    have hval : lookupM "s" wState.conversations =
        some { customerWs := some 1, messages := [{ role := "user", content := "hi" }],
               hasHuman := false, agentWs := none, assignedAgent := none, agentName := none,
               customerInfo := none } := by decide
    rw [hval] at hc
    injection hc with he
    rw [← he]
  exact ⟨hq, (c5_queue_only_unhandled wState hq).2.2.2.2.1 "s" "a"⟩

/-- C8: the claim is false of the source — `handleCustomerMessage` clears
and re-arms only the queue-eviction timer (`customerTimeouts`, lines
619-621 via `setupCustomerTimeout`); it never touches
`customerIdleTimeouts`, so the idle timer runs from session restore
regardless of activity.  In the run `exActive` (restore at 0, customer
message at 629000) the idle deadline is still 630000 while the eviction
timer was re-armed to 629000 + CUSTOMER_TIMEOUT, and the idle firing at
630000 — one second after the last inbound message — evicts the live
session. -/
theorem c8_idle_timer_not_restarted :
    lookupM "c1" exActive.customerIdleTimeouts = some CUSTOMER_IDLE_TIMEOUT ∧
    exActive.now = 629000 ∧
    lookupM "c1" exActive.customerTimeouts = some (629000 + CUSTOMER_TIMEOUT) ∧
    (lookupM "c1" exActive.conversations).isSome = true ∧
    lookupM "c1" exActiveFired.conversations = none := by
  decide

theorem c9_counterexample :
    (lookupM "s1" exS5.conversations).map (fun conv => conv.hasHuman) = some true ∧
    (lookupM "s1" exS5.customerIdleTimeouts).isSome = true ∧
    (lookupM "s1" exIdleFired.conversations).isSome = true := by
  decide

/-- C9 (amended): when the customer idle-timeout fires for an existing
session, the timer entry is dropped and the customer is notified when
their socket is live; an AI-only session is evicted from the registry and
removed from the waiting queue, but a human-handled session is ended via
`handleEndChat` — its links cleared — and its record is RETAINED in the
registry.  The unamended claim is false: the source's idle callback calls
`handleEndChat` for human-handled sessions, which never calls
`conversations.delete` (`c9_counterexample`). -/
theorem c9_idle_fire (sid : String) (st : ServerState) (conv : Conversation)
    (hlc : lookupM sid st.conversations = some conv) :
    lookupM sid (fireCustomerIdleTimeout sid st).1.customerIdleTimeouts = none ∧
    (∀ cc, conv.customerWs = some cc → wsOpen st.openConns (some cc) = true →
      Send.sessionTimeout cc ∈ (fireCustomerIdleTimeout sid st).2) ∧
    (conv.hasHuman = false →
      lookupM sid (fireCustomerIdleTimeout sid st).1.conversations = none ∧
      (fireCustomerIdleTimeout sid st).1.waitingQueue = st.waitingQueue.erase sid) ∧
    (conv.hasHuman = true →
      lookupM sid (fireCustomerIdleTimeout sid st).1.conversations =
        some { conv with
          hasHuman := false
          agentWs := none
          assignedAgent := none
          agentName := none }) := by
  refine ⟨?_, ?_, ?_, ?_⟩
  · exact lookupM_delM_self _ _
  · intro cc hcw hop
    simp only [fireCustomerIdleTimeout, hlc, hcw, hop, if_true, Option.getD_some]
    split
    · exact List.mem_append.mpr (Or.inl (List.mem_singleton.mpr rfl))
    · exact List.mem_singleton.mpr rfl
  · intro hh
    simp only [fireCustomerIdleTimeout, hlc, hh, Bool.false_eq_true, if_false]
    exact ⟨lookupM_delM_self _ _, trivial⟩
  · intro hh
    simp only [fireCustomerIdleTimeout, hlc, hh, if_true]
    simp only [handleEndChat, hlc, saveChatHistory]
    repeat' split
    all_goals exact lookupM_setM_self _ _ _

theorem c9_witness :
    lookupM "sA" c6St.conversations = some c6ConvA ∧
    lookupM "sA" (fireCustomerIdleTimeout "sA" c6St).1.customerIdleTimeouts = none ∧
    lookupM "sA" (fireCustomerIdleTimeout "sA" c6St).1.conversations = none :=
  ⟨by decide, (c9_idle_fire "sA" c6St c6ConvA (by decide)).1,
    ((c9_idle_fire "sA" c6St c6ConvA (by decide)).2.2.1 rfl).1⟩

theorem wsOpen_contains {conns : List Nat} {o : Option Nat} (h : wsOpen conns o = true) :
    conns.contains (o.getD 0) = true := by
  cases o with
  | none => exact absurd h (by simp [wsOpen])
  | some c => exact h

theorem contains_target_of_mem_guardedMap {conns : List Nat}
    {l : List (String × AgentData)} {g : String × AgentData → Bool}
    {mk : String × AgentData → Send} {s : Send}
    (hmem : s ∈ (l.filter (fun p => g p && wsOpen conns p.2.ws)).map mk)
    (hmk : ∀ p, (mk p).target = p.2.ws.getD 0) :
    conns.contains s.target = true := by
  rcases List.mem_map.mp hmem with ⟨p, hp, hs⟩
  have hf := (List.mem_filter.mp hp).2
  have hw : wsOpen conns p.2.ws = true := (Bool.and_eq_true _ _ |>.mp hf).2
  rw [← hs, hmk p]
  exact wsOpen_contains hw

theorem contains_target_of_mem_openMap {conns : List Nat}
    {l : List (String × AgentData)} {mk : String × AgentData → Send} {s : Send}
    (hmem : s ∈ (l.filter (fun p => wsOpen conns p.2.ws)).map mk)
    (hmk : ∀ p, (mk p).target = p.2.ws.getD 0) :
    conns.contains s.target = true := by
  rcases List.mem_map.mp hmem with ⟨p, hp, hs⟩
  have hw : wsOpen conns p.2.ws = true := (List.mem_filter.mp hp).2
  rw [← hs, hmk p]
  exact wsOpen_contains hw

theorem c10_counterexample :
    (Send.noAgentsAvailable 100 ∈ (handleHumanRequest "q1" none exDeadCustomer).2 ∧
     wsOpen exDeadCustomer.openConns (some 100) = false) ∧
    (Send.aiResponseMsg 100 "q1" "hi" ∈
       (handleCustomerMessage 100 "q1" "hello" (AiResponse.answer "hi") exDeadCustomer).2 ∧
     exDeadCustomer.openConns.contains 100 = false) := by
  decide

theorem g10_accept (st : ServerState) (sid aid : String) (s : Send)
    (hmem : s ∈ (handleAcceptRequest sid aid st).2) :
    st.openConns.contains s.target = true := by
  cases hlc : lookupM sid st.conversations with
  | none =>
      simp only [handleAcceptRequest, hlc] at hmem
      exact absurd hmem (List.not_mem_nil s)
  | some conv =>
      cases hla : lookupM aid st.humanAgents with
      | none =>
          simp only [handleAcceptRequest, hlc, hla] at hmem
          exact absurd hmem (List.not_mem_nil s)
      | some agentData =>
          simp only [handleAcceptRequest, hlc, hla, clearCustomerTimeout] at hmem
          split at hmem
          · split at hmem
            · rename_i hw
              rw [List.mem_singleton] at hmem
              subst hmem
              exact wsOpen_contains hw
            · exact absurd hmem (List.not_mem_nil s)
          · rcases List.mem_append.mp hmem with h1 | h1
            · rcases List.mem_append.mp h1 with h2 | h2
              · exact contains_target_of_mem_guardedMap h2 (fun p => rfl)
              · split at h2
                · rename_i hw
                  rw [List.mem_singleton] at h2
                  subst h2
                  exact wsOpen_contains hw
                · exact absurd h2 (List.not_mem_nil s)
            · split at h1
              · rename_i hw
                rw [List.mem_singleton] at h1
                subst h1
                exact wsOpen_contains hw
              · exact absurd h1 (List.not_mem_nil s)

theorem g10_endChat (st : ServerState) (sid reason : String) (s : Send)
    (hmem : s ∈ (handleEndChat sid reason st).2) :
    st.openConns.contains s.target = true := by
  cases hlc : lookupM sid st.conversations with
  | none =>
      simp only [handleEndChat, hlc] at hmem
      exact absurd hmem (List.not_mem_nil s)
  | some conv =>
      simp only [handleEndChat, hlc, saveChatHistory] at hmem
      rcases List.mem_append.mp hmem with h1 | h1
      · rcases List.mem_append.mp h1 with h2 | h2
        · split at h2
          · rename_i hcnd
            rcases List.mem_append.mp h2 with h3 | h3
            · split at h3
              · rw [List.mem_singleton] at h3
                subst h3
                exact wsOpen_contains hcnd.1
              · exact absurd h3 (List.not_mem_nil s)
            · rw [List.mem_singleton] at h3
              subst h3
              exact wsOpen_contains hcnd.1
          · exact absurd h2 (List.not_mem_nil s)
        · split at h2
          · rename_i hcnd
            rw [List.mem_singleton] at h2
            subst h2
            exact wsOpen_contains hcnd.1
          · exact absurd h2 (List.not_mem_nil s)
      · exact contains_target_of_mem_guardedMap h1 (fun p => rfl)

theorem g10_agentMessage (st : ServerState) (sid m : String) (s : Send)
    (hmem : s ∈ (handleAgentMessage sid m st).2) :
    st.openConns.contains s.target = true := by
  cases hlc : lookupM sid st.conversations with
  | none =>
      simp only [handleAgentMessage, hlc] at hmem
      exact absurd hmem (List.not_mem_nil s)
  | some conv =>
      cases hcw : conv.customerWs with
      | none =>
          simp only [handleAgentMessage, hlc, hcw] at hmem
          exact absurd hmem (List.not_mem_nil s)
      | some c =>
          simp only [handleAgentMessage, hlc, hcw] at hmem
          split at hmem
          · rename_i hw
            rw [List.mem_singleton] at hmem
            subst hmem
            exact hw
          · exact absurd hmem (List.not_mem_nil s)

theorem g10_fireCustomer (st : ServerState) (sid : String) (s : Send)
    (hmem : s ∈ (fireCustomerTimeout sid st).2) :
    st.openConns.contains s.target = true := by
  cases hlc : lookupM sid st.conversations with
  | none =>
      simp only [fireCustomerTimeout, hlc] at hmem
      exact absurd hmem (List.not_mem_nil s)
  | some conv =>
      simp only [fireCustomerTimeout, hlc] at hmem
      split at hmem
      · exact absurd hmem (List.not_mem_nil s)
      · split at hmem
        · exact contains_target_of_mem_openMap hmem (fun p => rfl)
        · exact absurd hmem (List.not_mem_nil s)

theorem g10_fireIdle (st : ServerState) (sid : String) (s : Send)
    (hmem : s ∈ (fireCustomerIdleTimeout sid st).2) :
    st.openConns.contains s.target = true := by
  cases hlc : lookupM sid st.conversations with
  | none =>
      simp only [fireCustomerIdleTimeout, hlc] at hmem
      exact absurd hmem (List.not_mem_nil s)
  | some conv =>
      simp only [fireCustomerIdleTimeout, hlc] at hmem
      split at hmem
      · rcases List.mem_append.mp hmem with h1 | h1
        · split at h1
          · rename_i hw
            rw [List.mem_singleton] at h1
            subst h1
            exact wsOpen_contains hw
          · exact absurd h1 (List.not_mem_nil s)
        · exact g10_endChat st sid "customer_idle" s h1
      · split at hmem
        · rename_i hw
          rw [List.mem_singleton] at hmem
          subst hmem
          exact wsOpen_contains hw
        · exact absurd hmem (List.not_mem_nil s)

theorem g10_fireReconnect (st : ServerState) (aid sid : String) (s : Send)
    (hmem : s ∈ (fireAgentReconnectTimeout aid sid st).2) :
    st.openConns.contains s.target = true := by
  cases hlc : lookupM sid st.conversations with
  | none =>
      simp only [fireAgentReconnectTimeout, hlc] at hmem
      exact absurd hmem (List.not_mem_nil s)
  | some conv =>
      simp only [fireAgentReconnectTimeout, hlc] at hmem
      split at hmem
      · exact g10_endChat st sid "agent_timeout" s hmem
      · exact absurd hmem (List.not_mem_nil s)

theorem g10_endSession (st : ServerState) (sid : String) (s : Send)
    (hmem : s ∈ (handleEndSession sid st).2) :
    st.openConns.contains s.target = true := by
  cases hlc : lookupM sid st.conversations with
  | none =>
      simp only [handleEndSession, hlc] at hmem
      exact absurd hmem (List.not_mem_nil s)
  | some conv =>
      simp only [handleEndSession, hlc] at hmem
      split at hmem
      · exact g10_endChat st sid "customer_ended" s hmem
      · rcases List.mem_append.mp hmem with h1 | h1
        · rcases List.mem_append.mp h1 with h2 | h2
          · split at h2
            · rename_i hcnd
              rw [List.mem_singleton] at h2
              subst h2
              exact wsOpen_contains hcnd.2
            · exact absurd h2 (List.not_mem_nil s)
          · split at h2
            · split at h2
              · exact contains_target_of_mem_openMap h2 (fun p => rfl)
              · exact absurd h2 (List.not_mem_nil s)
            · exact absurd h2 (List.not_mem_nil s)
        · split at h1
          · rename_i hw
            rw [List.mem_singleton] at h1
            subst h1
            exact wsOpen_contains hw
          · exact absurd h1 (List.not_mem_nil s)

theorem g10_closeAgent (c : Nat) (st0 : ServerState) (s : Send)
    (hmem : s ∈ (closeAgentCleanup c st0).2) :
    st0.openConns.contains s.target = true := by
  cases hf : st0.humanAgents.find? (fun p => p.2.ws == some c) with
  | none =>
      simp only [closeAgentCleanup, hf] at hmem
      exact absurd hmem (List.not_mem_nil s)
  | some pa =>
      simp only [closeAgentCleanup, hf] at hmem
      cases hba : lookupM pa.1 st0.agentSessions with
      | none =>
          simp only [hba] at hmem
          exact absurd hmem (List.not_mem_nil s)
      | some sid =>
          simp only [hba] at hmem
          cases hlc : lookupM sid st0.conversations with
          | none =>
              simp only [hlc] at hmem
              exact absurd hmem (List.not_mem_nil s)
          | some conv =>
              simp only [hlc] at hmem
              split at hmem
              · cases hrt : (lookupM pa.1 st0.agentReconnectTimeouts).isNone with
                | true =>
                    simp only [hrt, if_true, setupAgentReconnectTimeout] at hmem
                    split at hmem
                    · rename_i hw
                      rw [List.mem_singleton] at hmem
                      subst hmem
                      exact wsOpen_contains hw
                    · exact absurd hmem (List.not_mem_nil s)
                | false =>
                    simp only [hrt, Bool.false_eq_true, if_false] at hmem
                    split at hmem
                    · rename_i hw
                      rw [List.mem_singleton] at hmem
                      subst hmem
                      exact wsOpen_contains hw
                    · exact absurd hmem (List.not_mem_nil s)
              · exact absurd hmem (List.not_mem_nil s)

theorem g10_closeCustomer (c : Nat) (st1 : ServerState) (s : Send)
    (hmem : s ∈ (closeCustomerCleanup c st1).2) :
    st1.openConns.contains s.target = true := by
  cases hf : st1.conversations.find? (fun p => p.2.customerWs == some c) with
  | none =>
      simp only [closeCustomerCleanup, hf] at hmem
      exact absurd hmem (List.not_mem_nil s)
  | some pc =>
      simp only [closeCustomerCleanup, hf] at hmem
      split at hmem
      · exact contains_target_of_mem_openMap hmem (fun p => rfl)
      · exact absurd hmem (List.not_mem_nil s)

theorem closeAgent_openConns (c : Nat) (st0 : ServerState) :
    (closeAgentCleanup c st0).1.openConns = st0.openConns := by
  simp only [closeAgentCleanup, setupAgentReconnectTimeout]
  repeat' split
  all_goals rfl

theorem g10_socketClose (c : Nat) (st : ServerState) (s : Send)
    (hmem : s ∈ (handleSocketClose c st).2) :
    (st.openConns.erase c).contains s.target = true := by
  simp only [handleSocketClose] at hmem
  rcases List.mem_append.mp hmem with h1 | h1
  · exact g10_closeAgent c { st with openConns := st.openConns.erase c } s h1
  · have h2 := g10_closeCustomer c
      (closeAgentCleanup c { st with openConns := st.openConns.erase c }).1 s h1
    rw [closeAgent_openConns] at h2
    exact h2

theorem g10_humanRequest (st : ServerState) (sid : String) (info : Option String) (s : Send)
    (hmem : s ∈ (handleHumanRequest sid info st).2) :
    st.openConns.contains s.target = true ∨ ∃ c, s = Send.noAgentsAvailable c := by
  cases hlc : lookupM sid st.conversations with
  | none =>
      simp only [handleHumanRequest, hlc] at hmem
      exact absurd hmem (List.not_mem_nil s)
  | some conv0 =>
      cases info with
      | none =>
          simp only [handleHumanRequest, hlc] at hmem
          split at hmem
          · cases hcw : conv0.customerWs with
            | none =>
                rw [hcw] at hmem
                exact absurd hmem (List.not_mem_nil s)
            | some c =>
                rw [hcw] at hmem
                rw [List.mem_singleton] at hmem
                subst hmem
                exact Or.inr ⟨c, rfl⟩
          · rcases List.mem_append.mp hmem with h1 | h1
            · exact Or.inl (contains_target_of_mem_openMap h1 (fun p => rfl))
            · split at h1
              · rename_i hw
                rw [List.mem_singleton] at h1
                subst h1
                exact Or.inl (wsOpen_contains hw)
              · exact absurd h1 (List.not_mem_nil s)
      | some i =>
          simp only [handleHumanRequest, hlc] at hmem
          split at hmem
          · cases hcw : conv0.customerWs with
            | none =>
                rw [hcw] at hmem
                exact absurd hmem (List.not_mem_nil s)
            | some c =>
                rw [hcw] at hmem
                rw [List.mem_singleton] at hmem
                subst hmem
                exact Or.inr ⟨c, rfl⟩
          · rcases List.mem_append.mp hmem with h1 | h1
            · exact Or.inl (contains_target_of_mem_openMap h1 (fun p => rfl))
            · split at h1
              · rename_i hw
                rw [List.mem_singleton] at h1
                subst h1
                exact Or.inl (wsOpen_contains hw)
              · exact absurd h1 (List.not_mem_nil s)

theorem g10_customerMessage (w : Nat) (sid m : String) (ai : AiResponse) (st : ServerState)
    (s : Send) (hmem : s ∈ (handleCustomerMessage w sid m ai st).2) :
    st.openConns.contains s.target = true ∨ s.target = w := by
  cases hlc : lookupM sid st.conversations with
  | some conv0 =>
      simp only [handleCustomerMessage, hlc, Option.isNone_some, Bool.false_eq_true, if_false,
        setupCustomerTimeout, clearCustomerTimeout] at hmem
      split at hmem
      · split at hmem
        · rename_i hw
          rw [List.mem_singleton] at hmem
          subst hmem
          exact Or.inl (wsOpen_contains hw)
        · dsimp only at hmem
          split at hmem
          · rename_i hw
            rw [List.mem_singleton] at hmem
            subst hmem
            exact Or.inl (wsOpen_contains hw)
          · exact absurd hmem (List.not_mem_nil s)
      · cases ai with
        | handoff m2 r2 =>
            rw [List.mem_singleton] at hmem
            subst hmem
            exact Or.inr rfl
        | answer m2 =>
            rw [List.mem_singleton] at hmem
            subst hmem
            exact Or.inr rfl
        | failed m2 =>
            rw [List.mem_singleton] at hmem
            subst hmem
            exact Or.inr rfl
  | none =>
      simp only [handleCustomerMessage, hlc, Option.isNone_none, if_true,
        setupCustomerTimeout, clearCustomerTimeout, lookupM_setM_self,
        Bool.false_eq_true, false_and, if_false] at hmem
      cases ai with
      | handoff m2 r2 =>
          rw [List.mem_singleton] at hmem
          subst hmem
          exact Or.inr rfl
      | answer m2 =>
          rw [List.mem_singleton] at hmem
          subst hmem
          exact Or.inr rfl
      | failed m2 =>
          rw [List.mem_singleton] at hmem
          subst hmem
          exact Or.inr rfl

theorem g10_sessionRestore (w : Nat) (sid : String) (st : ServerState) (s : Send)
    (hmem : s ∈ (handleCustomerSessionRestore w sid st).2) :
    st.openConns.contains s.target = true ∨ s.target = w := by
  cases hlc : lookupM sid st.conversations with
  | some conv =>
      simp only [handleCustomerSessionRestore, hlc, setupCustomerIdleTimeout,
        clearCustomerIdleTimeout] at hmem
      rcases List.mem_append.mp hmem with h1 | h1
      · rw [List.mem_singleton] at h1
        subst h1
        exact Or.inr rfl
      · split at h1
        · rename_i hcnd
          rw [List.mem_singleton] at h1
          subst h1
          exact Or.inl (wsOpen_contains hcnd.2)
        · exact absurd h1 (List.not_mem_nil s)
  | none =>
      simp only [handleCustomerSessionRestore, hlc, setupCustomerIdleTimeout,
        clearCustomerIdleTimeout, setupCustomerTimeout, clearCustomerTimeout] at hmem
      rw [List.mem_singleton] at hmem
      subst hmem
      exact Or.inr rfl

theorem reconnection_openConns (w : Nat) (aid uname : String) (st : ServerState) :
    (handleAgentReconnection w aid uname st).1.openConns = st.openConns := by
  simp only [handleAgentReconnection]
  repeat' split
  all_goals rfl

theorem g10_reconnectionSends (w : Nat) (aid uname : String) (st : ServerState) (s : Send)
    (hmem : s ∈ (handleAgentReconnection w aid uname st).2.1) :
    st.openConns.contains s.target = true ∨ s.target = w := by
  cases hba : lookupM aid st.agentSessions with
  | none =>
      simp only [handleAgentReconnection, hba] at hmem
      exact absurd hmem (List.not_mem_nil s)
  | some prev =>
      cases hlc : lookupM prev st.conversations with
      | none =>
          simp only [handleAgentReconnection, hba, hlc] at hmem
          exact absurd hmem (List.not_mem_nil s)
      | some conv =>
          simp only [handleAgentReconnection, hba, hlc] at hmem
          split at hmem
          · rcases List.mem_append.mp hmem with h1 | h1
            · rw [List.mem_singleton] at h1
              subst h1
              exact Or.inr rfl
            · split at h1
              · rename_i hw
                rw [List.mem_singleton] at h1
                subst h1
                exact Or.inl (wsOpen_contains hw)
              · exact absurd h1 (List.not_mem_nil s)
          · exact absurd hmem (List.not_mem_nil s)

theorem g10_agentJoin (w : Nat) (aid uname : String) (st : ServerState) (s : Send)
    (hmem : s ∈ (handleAgentJoin w aid uname st).2) :
    st.openConns.contains s.target = true ∨ s.target = w := by
  cases hwr : (handleAgentReconnection w aid uname st).2.2 with
  | true =>
      simp only [handleAgentJoin, hwr, if_true, List.append_nil] at hmem
      rcases List.mem_append.mp hmem with h1 | h1
      · exact g10_reconnectionSends w aid uname st s h1
      · rw [List.mem_singleton] at h1
        subst h1
        exact Or.inr rfl
  | false =>
      cases hex : lookupM aid (handleAgentReconnection w aid uname st).1.humanAgents with
      | some existing =>
          simp only [handleAgentJoin, hwr, Bool.false_eq_true, if_false, hex] at hmem
          rcases List.mem_append.mp hmem with h1 | hJoined
          · rcases List.mem_append.mp h1 with h2 | hReplay
            · rcases List.mem_append.mp h2 with h3 | hStatus
              · exact g10_reconnectionSends w aid uname st s h3
              · rw [List.mem_singleton] at hStatus
                subst hStatus
                exact Or.inr rfl
            · rcases List.mem_filterMap.mp hReplay with ⟨p, hp, heq⟩
              split at heq
              · injection heq with heq
                subst heq
                exact Or.inr rfl
              · exact Option.noConfusion heq
          · have hct := contains_target_of_mem_guardedMap hJoined (fun p => rfl)
            refine Or.inl ?_
            rw [← reconnection_openConns w aid uname st]
            exact hct
      | none =>
          simp only [handleAgentJoin, hwr, Bool.false_eq_true, if_false, hex] at hmem
          rcases List.mem_append.mp hmem with h1 | hJoined
          · rcases List.mem_append.mp h1 with h2 | hReplay
            · rcases List.mem_append.mp h2 with h3 | hStatus
              · exact g10_reconnectionSends w aid uname st s h3
              · rw [List.mem_singleton] at hStatus
                subst hStatus
                exact Or.inr rfl
            · rcases List.mem_filterMap.mp hReplay with ⟨p, hp, heq⟩
              split at heq
              · injection heq with heq
                subst heq
                exact Or.inr rfl
              · exact Option.noConfusion heq
          · have hct := contains_target_of_mem_guardedMap hJoined (fun p => rfl)
            refine Or.inl ?_
            rw [← reconnection_openConns w aid uname st]
            exact hct

/-- C10 (amended): every send of the routing core either targets a
connection that is checked open at send time, or is one of the writes
the source performs without a liveness check.  Fully guarded (every send
lands on the open set): `handleAcceptRequest`, `handleEndChat`,
`handleAgentMessage`, both customer-timer firings, the reconnect-grace
expiry, `handleEndSession`, and the socket-close handler (whose sends
are checked against the open set with the closed socket already
removed).  Unguarded: `handleHumanRequest`'s `no_agents_available`
reply, written to the stored customer handle with no `readyState` check,
and the replies each handler addresses to the event's own incoming
socket `w` without re-checking it — `handleCustomerMessage`'s post-await
`handoff_offer`/`ai_response`/`error` replies, the session-restore
acknowledgement, and the agent join/reconnect status pushes
(`c10_counterexample` exhibits both a `no_agents_available` and an
`ai_response` send to a closed connection). -/
theorem c10_guarded_sends (st : ServerState) :
    (∀ sid aid s, s ∈ (handleAcceptRequest sid aid st).2 →
       st.openConns.contains s.target = true) ∧
    (∀ sid reason s, s ∈ (handleEndChat sid reason st).2 →
       st.openConns.contains s.target = true) ∧
    (∀ sid m s, s ∈ (handleAgentMessage sid m st).2 →
       st.openConns.contains s.target = true) ∧
    (∀ sid s, s ∈ (fireCustomerTimeout sid st).2 →
       st.openConns.contains s.target = true) ∧
    (∀ sid s, s ∈ (fireCustomerIdleTimeout sid st).2 →
       st.openConns.contains s.target = true) ∧
    (∀ aid sid s, s ∈ (fireAgentReconnectTimeout aid sid st).2 →
       st.openConns.contains s.target = true) ∧
    (∀ sid s, s ∈ (handleEndSession sid st).2 →
       st.openConns.contains s.target = true) ∧
    (∀ c s, s ∈ (handleSocketClose c st).2 →
       (st.openConns.erase c).contains s.target = true) ∧
    (∀ sid info s, s ∈ (handleHumanRequest sid info st).2 →
       st.openConns.contains s.target = true ∨ ∃ c, s = Send.noAgentsAvailable c) ∧
    (∀ w sid m ai s, s ∈ (handleCustomerMessage w sid m ai st).2 →
       st.openConns.contains s.target = true ∨ s.target = w) ∧
    (∀ w sid s, s ∈ (handleCustomerSessionRestore w sid st).2 →
       st.openConns.contains s.target = true ∨ s.target = w) ∧
    (∀ w aid uname s, s ∈ (handleAgentJoin w aid uname st).2 →
       st.openConns.contains s.target = true ∨ s.target = w) :=
  ⟨fun sid aid s h => g10_accept st sid aid s h,
   fun sid reason s h => g10_endChat st sid reason s h,
   fun sid m s h => g10_agentMessage st sid m s h,
   fun sid s h => g10_fireCustomer st sid s h,
   fun sid s h => g10_fireIdle st sid s h,
   fun aid sid s h => g10_fireReconnect st aid sid s h,
   fun sid s h => g10_endSession st sid s h,
   fun c s h => g10_socketClose c st s h,
   fun sid info s h => g10_humanRequest st sid info s h,
   fun w sid m ai s h => g10_customerMessage w sid m ai st s h,
   fun w sid s h => g10_sessionRestore w sid st s h,
   fun w aid uname s h => g10_agentJoin w aid uname st s h⟩

theorem c10_witness :
    Send.requestAlreadyTaken 3 "s" ∈ (handleAcceptRequest "s" "b" wStateTaken).2 ∧
    wStateTaken.openConns.contains (Send.requestAlreadyTaken 3 "s").target = true :=
  ⟨by decide,
    (c10_guarded_sends wStateTaken).1 "s" "b" (Send.requestAlreadyTaken 3 "s") (by decide)⟩

end VgRouting
